import Mathlib

/-
Verification of the dlrs-core TEE layer (enclave, attestation, sealed
storage, secure channel) against its natural-language specification.

Modelling conventions, shared by every definition below:
* Bytes are natural numbers; byte strings are `List Nat`.  Where a byte
  bound matters (hex encoding) it appears as an explicit hypothesis.
* The SHA-256 hash used throughout the Rust code is an external
  collaborator; every definition is parametric in a hash function
  `H : Bytes → Bytes`.  `HashLike H` records the two facts the code
  relies on: digests are 32 bytes long and consist of bytes.
* `Sha256::update` calls accumulate input; a digest of several updates
  is modelled as `H` applied to the concatenation of the update inputs.
* Randomness (nonces, uuids, DH randomness) and the wall clock
  (`Utc::now`, modelled as an integer number of seconds) enter as
  explicit parameters of the operations that draw them.
* Rust strings are byte strings via UTF-8; `strBytes` maps each
  character to its code point, which agrees with UTF-8 on the ASCII
  data this code handles.
* `f64` values travel through the sealing layer only as their 8-byte
  little-endian bit patterns; they are modelled as naturals below
  `2 ^ 64` (the bit pattern), and `f64::to_le_bytes` becomes
  `leBytes 8`.  The floating-point arithmetic of the capability score
  (enclave.rs lines 293-294) is IEEE-754 f64, with overflow, underflow
  and NaN behaviour that exact arithmetic does not reproduce; it is
  outside this embedding, which models only the serialization of the
  factor arrays.
-/

set_option maxRecDepth 8000

abbrev Bytes := List Nat

/-- Byte string of a Rust `str` (`as_bytes`), code points of its characters
(exact for the ASCII strings this code uses). -/
def strBytes (s : String) : Bytes := s.data.map Char.toNat

/-- Little-endian byte encoding of `n` into `w` bytes (models Rust
`to_le_bytes` of the various integer widths). -/
def leBytes : Nat → Nat → Bytes
  | 0, _ => []
  | w + 1, n => n % 256 :: leBytes w (n / 256)

/-- Inverse reading of a little-endian byte list (models `from_le_bytes`). -/
def fromLeBytes : Bytes → Nat
  | [] => 0
  | b :: rest => b + 256 * fromLeBytes rest

/-- Lower-case hexadecimal digit character for `n < 16` (the `hex` crate
encodes in lower case). -/
def hexDigit (n : Nat) : Char :=
  if n < 10 then Char.ofNat (48 + n) else Char.ofNat (87 + n)

/-- Hexadecimal string of a byte list, two characters per byte; models
`hex::encode`. -/
def hexEncode (bs : Bytes) : String :=
  ⟨bs.flatMap (fun b => [hexDigit (b / 16), hexDigit (b % 16)])⟩

/-- Value of one hexadecimal character, accepting the digit, lower-case
and upper-case ranges exactly as `hex::decode` does. -/
def hexDigitVal (c : Char) : Option Nat :=
  if 48 ≤ c.toNat ∧ c.toNat ≤ 57 then some (c.toNat - 48)
  else if 97 ≤ c.toNat ∧ c.toNat ≤ 102 then some (c.toNat - 87)
  else if 65 ≤ c.toNat ∧ c.toNat ≤ 70 then some (c.toNat - 55)
  else none

/-- Character-list worker of `hexDecode`; fails on odd length or on a
character outside the hexadecimal alphabet, as `hex::decode` does. -/
def hexDecodeList : List Char → Option Bytes
  | [] => some []
  | [_] => none
  | c1 :: c2 :: rest =>
    match hexDigitVal c1, hexDigitVal c2, hexDecodeList rest with
    | some h, some l, some bs => some ((16 * h + l) :: bs)
    | _, _, _ => none

/-- Byte list of a hexadecimal string; models `hex::decode`. -/
def hexDecode (s : String) : Option Bytes := hexDecodeList s.data

/-- Concatenation of `fuel` hash blocks `block ctr`, `ctr` counting up from
the second argument.  The Rust keystream loops `while keystream.len() < len`
appending 32-byte digests; running the loop body `len` times and truncating
afterwards produces the same list whenever blocks are nonempty, which
`HashLike` guarantees. -/
def streamBlocks (block : Nat → Bytes) : Nat → Nat → Bytes
  | 0, _ => []
  | fuel + 1, ctr => block ctr ++ streamBlocks block fuel (ctr + 1)

/-- Properties of the external hash the code relies on: digests are 32
bytes, each a byte. -/
def HashLike (H : Bytes → Bytes) : Prop :=
  ∀ l, (H l).length = 32 ∧ ∀ b ∈ H l, b < 256

/-- Concrete stand-in hash used to evaluate the development on closed
inputs: 32 output bytes folded from the input. -/
def toyHash (l : Bytes) : Bytes :=
  (List.range 32).map
    (fun i => l.foldl (fun acc a => (acc * 31 + a + i + 1) % 256) ((i + l.length) % 256))

theorem toyHash_hashLike : HashLike toyHash := by
  intro l
  refine ⟨by simp [toyHash], ?_⟩
  intro b hb
  simp only [toyHash, List.mem_map] at hb
  obtain ⟨i, _, hfold⟩ := hb
  subst hfold
  have h : ∀ (xs : Bytes) (acc : Nat), acc < 256 →
      xs.foldl (fun acc a => (acc * 31 + a + i + 1) % 256) acc < 256 := by
    intro xs
    induction xs with
    | nil => intro acc hacc; simpa using hacc
    | cons a rest ih =>
      intro acc hacc
      rw [List.foldl_cons]
      exact ih _ (Nat.mod_lt _ (by norm_num))
  exact h l _ (Nat.mod_lt _ (by norm_num))

/-
Enclave (src/dlrs-core/src/tee/enclave.rs)
-/

instance {ε α : Type} [DecidableEq ε] [DecidableEq α] : DecidableEq (Except ε α) :=
  fun x y =>
    match x, y with
    | .ok a, .ok b =>
      if h : a = b then isTrue (by rw [h])
      else isFalse (by intro hc; cases hc; exact h rfl)
    | .ok _, .error _ => isFalse (by intro hc; cases hc)
    | .error _, .ok _ => isFalse (by intro hc; cases hc)
    | .error a, .error b =>
      if h : a = b then isTrue (by rw [h])
      else isFalse (by intro hc; cases hc; exact h rfl)

/-- Error type of the TEE layer (`TeeError` in enclave.rs); each variant
carries the reason string the Rust code formats. -/
inductive TeeError where
  | BackendUnavailable (reason : String)
  | KeyNotFound (key : String)
  | SealingError (reason : String)
  | IntegrityError (reason : String)
  | AttestationError (reason : String)
  | EnclaveError (reason : String)
deriving DecidableEq

/-- Supported TEE backends (`TeeBackend`). -/
inductive TeeBackend where
  | IntelSgx
  | ArmTrustZone
  | Simulated
deriving DecidableEq

/-- Enclave security level (`SecurityLevel`). -/
inductive SecurityLevel where
  | Hardware
  | Software
  | Degraded
deriving DecidableEq

/-- String the Rust `Debug` derive prints for a security level, used in
`format!` reason strings. -/
def SecurityLevel.debugStr : SecurityLevel → String
  | .Hardware => "Hardware"
  | .Software => "Software"
  | .Degraded => "Degraded"

/-- Enclave identity measurement (`EnclaveMeasurement`). -/
structure EnclaveMeasurement where
  mrenclave : String
  mrsigner : String
  product_id : Nat
  isv_svn : Nat
  attributes : Nat
deriving DecidableEq

/-- Measurement computation (`EnclaveMeasurement::compute`): two
independent digests over the code hash and the signer key, each with its
own domain suffix. -/
def EnclaveMeasurement.compute (H : Bytes → Bytes) (code_hash signer_key : String)
    (product_id svn : Nat) : EnclaveMeasurement :=
  { mrenclave := hexEncode (H (strBytes code_hash ++ strBytes ("mrenclave-v1")))
    mrsigner := hexEncode (H (strBytes signer_key ++ strBytes ("mrsigner-v1")))
    product_id := product_id
    isv_svn := svn
    attributes := 7 }

/-- Measurement match (`EnclaveMeasurement::matches`): equal code and
signer hashes and an SVN at least the expected one. -/
def EnclaveMeasurement.matchesM (self expected : EnclaveMeasurement) : Bool :=
  self.mrenclave == expected.mrenclave && self.mrsigner == expected.mrsigner
    && expected.isv_svn ≤ self.isv_svn

/-- Association list standing for the Rust `HashMap`; `mapInsert` replaces
any previous binding of the key (`HashMap::insert` upsert), so the list
length is the number of distinct keys, as `HashMap::len` reports. -/
def mapInsert {α : Type} (st : List (String × α)) (k : String) (v : α) :
    List (String × α) :=
  (k, v) :: st.filter (fun p => p.1 ≠ k)

/-- Lookup in the association list (`HashMap::get`). -/
def mapGet {α : Type} (st : List (String × α)) (k : String) : Option α :=
  (st.find? (fun p => p.1 == k)).map Prod.snd

/-- A TEE enclave instance (`TeeEnclave`).  The sealed store maps string
keys to encrypted blobs. -/
structure TeeEnclave where
  id : String
  backend : TeeBackend
  measurement : EnclaveMeasurement
  sealed_store : List (String × Bytes)
  sealing_key : Bytes
  created_at : Int
  security_level : SecurityLevel

/-- Sealing-key derivation (`TeeEnclave::derive_sealing_key`): digest of
code hash, signer hash, instance id and a domain tag. -/
def derive_sealing_key (H : Bytes → Bytes) (m : EnclaveMeasurement)
    (enclave_id : String) : Bytes :=
  H (strBytes m.mrenclave ++ strBytes m.mrsigner ++ strBytes enclave_id
      ++ strBytes ("dlrs-sealing-key-v1"))

/-- Enclave construction (`TeeEnclave::new`).  The uuid and the hardware
probe are external inputs: `id` stands for the fresh uuid and
`hw_available` for the platform probe of the requested backend; a
non-simulated backend that probes unavailable downgrades to Software. -/
def TeeEnclave.new (H : Bytes → Bytes) (backend : TeeBackend)
    (hw_available : Bool) (id : String) (now : Int) : TeeEnclave :=
  let security_level :=
    match backend with
    | .IntelSgx => if hw_available then SecurityLevel.Hardware else SecurityLevel.Software
    | .ArmTrustZone => if hw_available then SecurityLevel.Hardware else SecurityLevel.Software
    | .Simulated => SecurityLevel.Software
  let measurement :=
    EnclaveMeasurement.compute H ("dlrs-enclave-" ++ id) ("dlrs-signer-key-v1") 1 1
  { id := id
    backend := backend
    measurement := measurement
    sealed_store := []
    sealing_key := derive_sealing_key H measurement id
    created_at := now
    security_level := security_level }

/-- Keystream generation (`TeeEnclave::generate_keystream`): hash chain
over (sealing key, nonce, block counter), truncated to `len`. -/
def generate_keystream (H : Bytes → Bytes) (key nonce : Bytes) (len : Nat) : Bytes :=
  (streamBlocks (fun ctr => H (key ++ nonce ++ leBytes 8 ctr)) len 0).take len

/-- MAC computation (`TeeEnclave::compute_mac`): digest of sealing key,
nonce, plaintext and a domain tag. -/
def compute_mac (H : Bytes → Bytes) (key nonce plaintext : Bytes) : Bytes :=
  H (key ++ nonce ++ plaintext ++ strBytes ("dlrs-mac-v1"))

/-- Encryption (`TeeEnclave::encrypt`): random 16-byte nonce (here a
parameter), keystream XOR, MAC appended; layout nonce ‖ ciphertext ‖ MAC.
The Rust function returns `Ok` unconditionally, so the model is total. -/
def TeeEnclave.encrypt (H : Bytes → Bytes) (e : TeeEnclave) (nonce plaintext : Bytes) :
    Bytes :=
  nonce
    ++ List.zipWith (fun b k => b ^^^ k) plaintext
        (generate_keystream H e.sealing_key nonce plaintext.length)
    ++ compute_mac H e.sealing_key nonce plaintext

/-- Decryption (`TeeEnclave::decrypt`): length check, split into nonce,
ciphertext and MAC, keystream XOR, MAC comparison failing closed. -/
def TeeEnclave.decrypt (H : Bytes → Bytes) (e : TeeEnclave) (sealed : Bytes) :
    Except TeeError Bytes :=
  if sealed.length < 48 then
    .error (.SealingError ("Data too short"))
  else
    let nonce := sealed.take 16
    let mac := sealed.drop (sealed.length - 32)
    let ciphertext := (sealed.drop 16).take (sealed.length - 48)
    let keystream := generate_keystream H e.sealing_key nonce ciphertext.length
    let plaintext := List.zipWith (fun b k => b ^^^ k) ciphertext keystream
    if mac ≠ compute_mac H e.sealing_key nonce plaintext then
      .error (.IntegrityError ("MAC verification failed"))
    else
      .ok plaintext

/-- Sealing (`TeeEnclave::seal`): encrypt and upsert under the key.  The
fresh random nonce is a parameter. -/
def TeeEnclave.seal (H : Bytes → Bytes) (e : TeeEnclave) (nonce : Bytes)
    (key : String) (plaintext : Bytes) : TeeEnclave :=
  { e with sealed_store := mapInsert e.sealed_store key (e.encrypt H nonce plaintext) }

/-- Unsealing (`TeeEnclave::unseal`): `KeyNotFound` for an absent key,
otherwise decrypt the stored blob. -/
def TeeEnclave.unseal (H : Bytes → Bytes) (e : TeeEnclave) (key : String) :
    Except TeeError Bytes :=
  match mapGet e.sealed_store key with
  | none => .error (.KeyNotFound key)
  | some sealed => e.decrypt H sealed

/-- Chunked reading of f64 values from bytes (the local `bytes_to_f64` in
enclave.rs): every full 8-byte little-endian chunk, remainder dropped as
`chunks_exact` does; values are bit patterns. -/
def bytes_to_f64 : Bytes → List Nat
  | b0 :: b1 :: b2 :: b3 :: b4 :: b5 :: b6 :: b7 :: rest =>
    fromLeBytes [b0, b1, b2, b3, b4, b5, b6, b7] :: bytes_to_f64 rest
  | _ => []

/-- Batch sealing of the three factor arrays
(`TeeEnclave::seal_matrix_factors`) under namespaced keys; the three
fresh nonces are parameters, the arrays are f64 bit patterns serialized
little-endian. -/
def seal_matrix_factors (H : Bytes → Bytes) (e : TeeEnclave)
    (n1 n2 n3 : Bytes) (adapter_id : String) (u_data sigma_data v_data : List Nat) :
    TeeEnclave :=
  let e1 := e.seal H n1 (adapter_id ++ "/U") (u_data.flatMap (leBytes 8))
  let e2 := e1.seal H n2 (adapter_id ++ "/S") (sigma_data.flatMap (leBytes 8))
  e2.seal H n3 (adapter_id ++ "/V") (v_data.flatMap (leBytes 8))

/-- Batch unsealing (`TeeEnclave::unseal_matrix_factors`). -/
def unseal_matrix_factors (H : Bytes → Bytes) (e : TeeEnclave) (adapter_id : String) :
    Except TeeError (List Nat × List Nat × List Nat) := do
  let u_bytes ← e.unseal H (adapter_id ++ "/U")
  let s_bytes ← e.unseal H (adapter_id ++ "/S")
  let v_bytes ← e.unseal H (adapter_id ++ "/V")
  return (bytes_to_f64 u_bytes, bytes_to_f64 s_bytes, bytes_to_f64 v_bytes)

/-
Attestation (src/dlrs-core/src/tee/attestation.rs)
-/

/-- Report data of an attestation quote (`EnclaveReport`). -/
structure EnclaveReport where
  enclave_id : String
  sealed_adapters : Nat
  uptime_secs : Int
deriving DecidableEq

/-- An attestation quote (`AttestationQuote`); the timestamp is seconds. -/
structure AttestationQuote where
  measurement : EnclaveMeasurement
  nonce : String
  signature : String
  backend : TeeBackend
  security_level : SecurityLevel
  timestamp : Int
  enclave_data : EnclaveReport
deriving DecidableEq

/-- Verifier policy (`AttestationPolicy`). -/
structure AttestationPolicy where
  trusted_enclaves : List String
  trusted_signers : List String
  min_svn : Nat
  allow_simulated : Bool
  max_quote_age_secs : Int
  min_security_level : SecurityLevel
deriving DecidableEq

/-- Permissive development default (`AttestationPolicy::default`). -/
def default_policy : AttestationPolicy :=
  { trusted_enclaves := []
    trusted_signers := []
    min_svn := 0
    allow_simulated := true
    max_quote_age_secs := 3600
    min_security_level := .Software }

/-- Strict policy constructor (`AttestationPolicy::strict`). -/
def strict_policy (trusted_signers : List String) : AttestationPolicy :=
  { trusted_enclaves := []
    trusted_signers := trusted_signers
    min_svn := 1
    allow_simulated := false
    max_quote_age_secs := 300
    min_security_level := .Hardware }

/-- Verification result (`AttestationVerdict`). -/
inductive AttestationVerdict where
  | Trusted (enclave_id : String) (security_level : SecurityLevel)
  | Untrusted (reason : String)
  | Invalid (reason : String)
  | Expired
deriving DecidableEq

/-- String the Rust `Debug` derive prints for a verdict (used inside
`format!` rejection reasons). -/
def AttestationVerdict.debugStr : AttestationVerdict → String
  | .Trusted id lvl =>
    "Trusted \x7b enclave_id: \"" ++ id ++ "\", security_level: "
      ++ lvl.debugStr ++ " \x7d"
  | .Untrusted r => "Untrusted \x7b reason: \"" ++ r ++ "\" \x7d"
  | .Invalid r => "Invalid \x7b reason: \"" ++ r ++ "\" \x7d"
  | .Expired => "Expired"

/-- Quote signature (the digest both `generate_quote` computes and
`verify_quote` recomputes, lines 121-131 and 153-163 of attestation.rs):
code hash, signer hash, SVN (u16, little-endian), nonce, report enclave
id and sealed-adapter count (usize, little-endian), and a domain tag.
The report's `uptime_secs` field is not an input. -/
def quote_signature (H : Bytes → Bytes) (m : EnclaveMeasurement) (nonce : String)
    (enclave_id : String) (sealed_adapters : Nat) : String :=
  hexEncode (H (strBytes m.mrenclave ++ strBytes m.mrsigner
    ++ leBytes 2 m.isv_svn ++ strBytes nonce ++ strBytes enclave_id
    ++ leBytes 8 sealed_adapters ++ strBytes ("dlrs-attestation-quote-v1")))

/-- Quote generation (`generate_quote`): pure in the enclave's public
measurement and status, the nonce, and the clock `now`. -/
def generate_quote (H : Bytes → Bytes) (e : TeeEnclave) (nonce : String) (now : Int) :
    AttestationQuote :=
  let report : EnclaveReport :=
    { enclave_id := e.id
      sealed_adapters := e.sealed_store.length / 3
      uptime_secs := now - e.created_at }
  { measurement := e.measurement
    nonce := nonce
    signature := quote_signature H e.measurement nonce report.enclave_id report.sealed_adapters
    backend := e.backend
    security_level := e.security_level
    timestamp := now
    enclave_data := report }

/-- Security-level gate of `verify_quote` (lines 179-183): a Hardware
minimum admits only Hardware; Software and Degraded minimums admit
every level. -/
def min_level_ok (minl lvl : SecurityLevel) : Bool :=
  match minl with
  | .Hardware => lvl == .Hardware
  | .Software => true
  | .Degraded => true

/-- Quote verification (`verify_quote`): ordered short-circuit checks
for freshness, signature, simulated policy, security level, SVN and the
two trust lists, in source order. -/
def verify_quote (H : Bytes → Bytes) (now : Int) (quote : AttestationQuote)
    (policy : AttestationPolicy) : AttestationVerdict :=
  if policy.max_quote_age_secs < now - quote.timestamp then
    .Expired
  else if quote.signature ≠ quote_signature H quote.measurement quote.nonce
      quote.enclave_data.enclave_id quote.enclave_data.sealed_adapters then
    .Invalid ("Quote signature mismatch")
  else if policy.allow_simulated = false ∧ quote.security_level = .Software then
    .Untrusted ("Software-simulated enclave not allowed by policy")
  else if min_level_ok policy.min_security_level quote.security_level = false then
    .Untrusted ("Security level " ++ quote.security_level.debugStr
      ++ " below minimum " ++ policy.min_security_level.debugStr)
  else if quote.measurement.isv_svn < policy.min_svn then
    .Untrusted ("SVN " ++ Nat.repr quote.measurement.isv_svn
      ++ " below minimum " ++ Nat.repr policy.min_svn)
  else if policy.trusted_enclaves ≠ [] ∧
      policy.trusted_enclaves.contains quote.measurement.mrenclave = false then
    .Untrusted ("MRENCLAVE not in trusted list")
  else if policy.trusted_signers ≠ [] ∧
      policy.trusted_signers.contains quote.measurement.mrsigner = false then
    .Untrusted ("MRSIGNER not in trusted list")
  else
    .Trusted quote.enclave_data.enclave_id quote.security_level

/-
Secure channel (src/dlrs-core/src/tee/secure_channel.rs)
-/

/-- Channel state (`ChannelState`). -/
inductive ChannelState where
  | Pending
  | Attesting
  | Established
  | Closed
deriving DecidableEq

/-- A secure channel endpoint (`SecureChannel`). -/
structure SecureChannel where
  channel_id : String
  local_enclave_id : String
  remote_enclave_id : Option String
  state : ChannelState
  session_key : Option Bytes
  send_counter : Nat
  recv_counter : Nat
  remote_security_level : Option SecurityLevel
  established_at : Option Int
  policy : AttestationPolicy

/-- Encrypted channel message (`SecureMessage`). -/
structure SecureMessage where
  channel_id : String
  sequence : Nat
  ciphertext : String
  mac : String
  timestamp : Int
deriving DecidableEq

/-- Handshake initiation envelope (`HandshakeInit`). -/
structure HandshakeInit where
  channel_id : String
  quote : AttestationQuote
  dh_public : String

/-- Handshake response envelope (`HandshakeResponse`). -/
structure HandshakeResponse where
  channel_id : String
  quote : AttestationQuote
  dh_public : String
  accepted : Bool
  reason : Option String

/-- Channel construction (`SecureChannel::new`); the uuid channel id is
a parameter. -/
def SecureChannel.new (channel_id local_enclave_id : String)
    (policy : AttestationPolicy) : SecureChannel :=
  { channel_id := channel_id
    local_enclave_id := local_enclave_id
    remote_enclave_id := none
    state := .Pending
    session_key := none
    send_counter := 0
    recv_counter := 0
    remote_security_level := none
    established_at := none
    policy := policy }

/-- Ephemeral public value (`SecureChannel::generate_dh_public`): digest
of channel id, enclave id, 32 fresh random bytes (a parameter) and a
domain tag. -/
def generate_dh_public (H : Bytes → Bytes) (channel_id enclave_id : String)
    (rand : Bytes) : String :=
  hexEncode (H (strBytes channel_id ++ strBytes enclave_id ++ rand
    ++ strBytes ("dlrs-dh-public-v1")))

/-- Session-key derivation (`SecureChannel::derive_session_key`): the two
ephemeral values are sorted so both roles derive the same key, then
hashed with the channel id and a domain tag. -/
def derive_session_key (H : Bytes → Bytes) (dh_a dh_b channel_id : String) : Bytes :=
  let p := if dh_a < dh_b then (dh_a, dh_b) else (dh_b, dh_a)
  H (strBytes p.1 ++ strBytes p.2 ++ strBytes channel_id
    ++ strBytes ("dlrs-session-key-v1"))

/-- Handshake step 1 (`SecureChannel::initiate_handshake`): state becomes
Attesting unconditionally; quote bound to a channel-scoped init nonce;
returns the init envelope and the updated channel. -/
def initiate_handshake (H : Bytes → Bytes) (c : SecureChannel) (e : TeeEnclave)
    (now : Int) (rand : Bytes) : HandshakeInit × SecureChannel :=
  let c1 := { c with state := ChannelState.Attesting }
  let nonce := "channel-" ++ c.channel_id ++ "-init"
  ({ channel_id := c.channel_id
     quote := generate_quote H e nonce now
     dh_public := generate_dh_public H c.channel_id e.id rand }, c1)

/-- Handshake step 2 (`SecureChannel::respond_to_handshake`): adopt the
peer's channel id, verify its quote; on Trusted derive the session key
and become Established, otherwise become Closed but still return an
attestable rejection quote. -/
def respond_to_handshake (H : Bytes → Bytes) (c : SecureChannel) (e : TeeEnclave)
    (init : HandshakeInit) (now : Int) (rand : Bytes) :
    HandshakeResponse × SecureChannel :=
  let c1 := { c with channel_id := init.channel_id, state := ChannelState.Attesting }
  match verify_quote H now init.quote c.policy with
  | .Trusted rid rlvl =>
    let nonce := "channel-" ++ init.channel_id ++ "-resp"
    let quote := generate_quote H e nonce now
    let dh_public := generate_dh_public H init.channel_id e.id rand
    let session_key := derive_session_key H init.dh_public dh_public init.channel_id
    ({ channel_id := init.channel_id
       quote := quote
       dh_public := dh_public
       accepted := true
       reason := none },
     { c1 with
        remote_enclave_id := some rid
        remote_security_level := some rlvl
        session_key := some session_key
        state := .Established
        established_at := some now })
  | v =>
    let nonce := "channel-" ++ init.channel_id ++ "-reject"
    ({ channel_id := init.channel_id
       quote := generate_quote H e nonce now
       dh_public := ""
       accepted := false
       reason := some ("Attestation failed: " ++ v.debugStr) },
     { c1 with state := .Closed })

/-- Handshake step 3 (`SecureChannel::complete_handshake`): a rejected
response closes the channel with an AttestationError; otherwise the
responder quote is verified, and on Trusted the session key is derived
from the caller-supplied own ephemeral value and the responder's. -/
def complete_handshake (H : Bytes → Bytes) (c : SecureChannel)
    (response : HandshakeResponse) (our_dh_public : String) (now : Int) :
    Except TeeError Unit × SecureChannel :=
  if response.accepted = false then
    (.error (.AttestationError (response.reason.getD ("Rejected"))),
     { c with state := ChannelState.Closed })
  else
    match verify_quote H now response.quote c.policy with
    | .Trusted rid rlvl =>
      (.ok (),
       { c with
          remote_enclave_id := some rid
          remote_security_level := some rlvl
          session_key := some (derive_session_key H our_dh_public
            response.dh_public c.channel_id)
          state := .Established
          established_at := some now })
    | v =>
      (.error (.AttestationError ("Responder attestation failed: " ++ v.debugStr)),
       { c with state := ChannelState.Closed })

/-- Per-message keystream (`SecureChannel::message_keystream`): hash chain
over (session key, sequence, block counter, tag). -/
def message_keystream (H : Bytes → Bytes) (session_key : Bytes) (sequence : Nat)
    (len : Nat) : Bytes :=
  (streamBlocks (fun ctr => H (session_key ++ leBytes 8 sequence ++ leBytes 8 ctr
    ++ strBytes ("msg-ks"))) len 0).take len

/-- Message MAC digest of encrypt/decrypt (lines 259-266 and 300-307):
session key, sequence, plaintext, domain tag. -/
def message_mac (H : Bytes → Bytes) (session_key : Bytes) (sequence : Nat)
    (plaintext : Bytes) : String :=
  hexEncode (H (session_key ++ leBytes 8 sequence ++ plaintext
    ++ strBytes ("dlrs-channel-mac-v1")))

/-- Message encryption (`SecureChannel::encrypt_message`): requires a
session key, uses and increments the send counter, hex-encodes the
keystream XOR and appends the MAC. -/
def encrypt_message (H : Bytes → Bytes) (c : SecureChannel) (plaintext : Bytes)
    (now : Int) : Except TeeError SecureMessage × SecureChannel :=
  match c.session_key with
  | none => (.error (.EnclaveError ("Channel not established")), c)
  | some key =>
    let seq := c.send_counter
    let keystream := message_keystream H key seq plaintext.length
    let ciphertext := hexEncode (List.zipWith (fun b k => b ^^^ k) plaintext keystream)
    (.ok { channel_id := c.channel_id
           sequence := seq
           ciphertext := ciphertext
           mac := message_mac H key seq plaintext
           timestamp := now },
     { c with send_counter := seq + 1 })

/-- Message decryption (`SecureChannel::decrypt_message`): requires a
session key; replays (sequence below the receive counter) fail with
IntegrityError "Replay detected"; hex decoding and the MAC comparison
fail closed; success advances the receive counter past the sequence. -/
def decrypt_message (H : Bytes → Bytes) (c : SecureChannel) (msg : SecureMessage) :
    Except TeeError Bytes × SecureChannel :=
  match c.session_key with
  | none => (.error (.EnclaveError ("Channel not established")), c)
  | some key =>
    if msg.sequence < c.recv_counter then
      (.error (.IntegrityError ("Replay detected")), c)
    else
      match hexDecode msg.ciphertext with
      | none => (.error (.SealingError ("Hex decode failed")), c)
      | some ciphertext_bytes =>
        let keystream := message_keystream H key msg.sequence ciphertext_bytes.length
        let plaintext := List.zipWith (fun b k => b ^^^ k) ciphertext_bytes keystream
        if msg.mac ≠ message_mac H key msg.sequence plaintext then
          (.error (.IntegrityError ("Message MAC mismatch")), c)
        else
          (.ok plaintext, { c with recv_counter := msg.sequence + 1 })

/-- Channel shutdown (`SecureChannel::close`): discard the session key
and become Closed. -/
def SecureChannel.close (c : SecureChannel) : SecureChannel :=
  { c with session_key := none, state := ChannelState.Closed }

/-- Establishment check (`SecureChannel::is_established`). -/
def SecureChannel.is_established (c : SecureChannel) : Bool :=
  c.state == .Established && c.session_key.isSome

/-
Sealed storage (src/dlrs-core/src/tee/sealed_storage.rs)
-/

/-- Persistent sealed record (`SealedAdapterRecord`); the three factor
blobs are hex strings of nonce-free file seals (ciphertext ‖ MAC). -/
structure SealedAdapterRecord where
  adapter_id : String
  name : String
  domains : List String
  rank : Nat
  original_dims : Nat × Nat
  sealed_u : String
  sealed_sigma : String
  sealed_v : String
  integrity_hash : String
  sealed_at : Int
  enclave_id : String
deriving DecidableEq

/-- Index of sealed records (`SealedIndex`), the unit of persistence. -/
structure SealedIndex where
  records : List (String × SealedAdapterRecord)
  total_sealed : Nat
  last_updated : Int
deriving DecidableEq

/-- Sealed storage manager (`SealedStorage`).  File persistence
(`save_index` / `load_index`) round-trips the index through JSON on
disk; the model carries the index value itself, and a reload is any
storage holding the same records. -/
structure SealedStorage where
  storage_dir : String
  index : SealedIndex
deriving DecidableEq

/-- Storage key derivation (`SealedStorage::derive_file_key`):
deterministic in the owning id, the array label and a fixed domain tag
only — no enclave key enters. -/
def derive_file_key (H : Bytes → Bytes) (adapter_id label : String) : Bytes :=
  H (strBytes adapter_id ++ strBytes label ++ strBytes ("dlrs-file-sealing-key-v1"))

/-- File keystream (`SealedStorage::file_keystream`). -/
def file_keystream (H : Bytes → Bytes) (key : Bytes) (len : Nat) : Bytes :=
  (streamBlocks (fun ctr => H (key ++ leBytes 8 ctr ++ strBytes ("file-ks"))) len 0).take len

/-- File-level MAC appended by `seal_for_file` and recomputed by
`unseal_from_file`. -/
def file_mac (H : Bytes → Bytes) (key plaintext : Bytes) : Bytes :=
  H (key ++ plaintext ++ strBytes ("dlrs-file-seal-mac"))

/-- File-level sealing (`SealedStorage::seal_for_file`): keystream XOR
under the storage key, MAC appended; layout ciphertext ‖ MAC. -/
def seal_for_file (H : Bytes → Bytes) (plaintext : Bytes) (adapter_id label : String) :
    Bytes :=
  let key := derive_file_key H adapter_id label
  List.zipWith (fun b k => b ^^^ k) plaintext (file_keystream H key plaintext.length)
    ++ file_mac H key plaintext

/-- File-level unsealing (`SealedStorage::unseal_from_file`): length
check, split, keystream XOR, MAC comparison failing closed. -/
def unseal_from_file (H : Bytes → Bytes) (sealed : Bytes) (adapter_id label : String) :
    Except TeeError Bytes :=
  if sealed.length < 32 then
    .error (.SealingError ("Sealed data too short"))
  else
    let key := derive_file_key H adapter_id label
    let mac := sealed.drop (sealed.length - 32)
    let ciphertext := sealed.take (sealed.length - 32)
    let plaintext := List.zipWith (fun b k => b ^^^ k) ciphertext
      (file_keystream H key ciphertext.length)
    if mac ≠ file_mac H key plaintext then
      .error (.IntegrityError ("File seal MAC mismatch"))
    else
      .ok plaintext

/-- Record integrity digest computed by `seal_adapter` and recomputed by
`unseal_adapter`: the three hex blobs, the id and a domain tag. -/
def record_integrity_hash (H : Bytes → Bytes)
    (sealed_u sealed_sigma sealed_v : String) (adapter_id : String) : String :=
  hexEncode (H (strBytes sealed_u ++ strBytes sealed_sigma ++ strBytes sealed_v
    ++ strBytes adapter_id ++ strBytes ("dlrs-sealed-integrity-v1")))

/-- Adapter sealing (`SealedStorage::seal_adapter`): seals the factors
into the live enclave, independently file-seals each array with its
storage key (the `unseal(...).ok().and_then(|_| None)` detour in the
source always falls through to `seal_for_file`), computes the integrity
hash, upserts the record and persists the index.  Returns the updated
storage and enclave. -/
def seal_adapter (H : Bytes → Bytes) (s : SealedStorage) (e : TeeEnclave)
    (n1 n2 n3 : Bytes) (adapter_id name : String) (domains : List String)
    (rank : Nat) (original_dims : Nat × Nat)
    (u_data sigma_data v_data : List Nat) (now : Int) :
    SealedStorage × TeeEnclave :=
  let e1 := seal_matrix_factors H e n1 n2 n3 adapter_id u_data sigma_data v_data
  let sealed_u := hexEncode (seal_for_file H (u_data.flatMap (leBytes 8)) adapter_id ("U"))
  let sealed_sigma :=
    hexEncode (seal_for_file H (sigma_data.flatMap (leBytes 8)) adapter_id ("S"))
  let sealed_v := hexEncode (seal_for_file H (v_data.flatMap (leBytes 8)) adapter_id ("V"))
  let record : SealedAdapterRecord :=
    { adapter_id := adapter_id
      name := name
      domains := domains
      rank := rank
      original_dims := original_dims
      sealed_u := sealed_u
      sealed_sigma := sealed_sigma
      sealed_v := sealed_v
      integrity_hash := record_integrity_hash H sealed_u sealed_sigma sealed_v adapter_id
      sealed_at := now
      enclave_id := e.id }
  let records := mapInsert s.index.records adapter_id record
  ({ s with index := { records := records
                       total_sealed := records.length
                       last_updated := now } }, e1)

/-- Adapter unsealing (`SealedStorage::unseal_adapter`): record lookup,
integrity recheck before any decryption, hex decode and per-blob
fail-closed file unsealing, then a re-seal of the recovered factors into
the supplied enclave (fresh nonces are parameters).  Returns the factor
arrays and the updated enclave; every failure leaves the enclave
untouched. -/
def unseal_adapter (H : Bytes → Bytes) (s : SealedStorage) (e : TeeEnclave)
    (n1 n2 n3 : Bytes) (adapter_id : String) :
    Except TeeError (List Nat × List Nat × List Nat) × TeeEnclave :=
  match mapGet s.index.records adapter_id with
  | none => (.error (.KeyNotFound adapter_id), e)
  | some record =>
    if record.integrity_hash ≠ record_integrity_hash H record.sealed_u
        record.sealed_sigma record.sealed_v adapter_id then
      (.error (.IntegrityError ("Sealed adapter integrity check failed")), e)
    else
      match hexDecode record.sealed_u, hexDecode record.sealed_sigma,
          hexDecode record.sealed_v with
      | some u_sealed, some s_sealed, some v_sealed =>
        match unseal_from_file H u_sealed adapter_id ("U"),
            unseal_from_file H s_sealed adapter_id ("S"),
            unseal_from_file H v_sealed adapter_id ("V") with
        | .ok u_bytes, .ok s_bytes, .ok v_bytes =>
          let u := bytes_to_f64 u_bytes
          let sg := bytes_to_f64 s_bytes
          let v := bytes_to_f64 v_bytes
          (.ok (u, sg, v), seal_matrix_factors H e n1 n2 n3 adapter_id u sg v)
        | .error err, _, _ => (.error err, e)
        | _, .error err, _ => (.error err, e)
        | _, _, .error err => (.error err, e)
      | _, _, _ => (.error (.SealingError ("Hex decode failed")), e)

/-
Reachability of channel states through the public operations, for the
channel invariants: any interleaving of the public API with arbitrary
inputs (hash functions, enclaves, envelopes, clocks and randomness).
-/

/-- Channel states reachable through the public SecureChannel
operations. -/
inductive Reachable : SecureChannel → Prop where
  | new (cid lid : String) (p : AttestationPolicy) :
      Reachable (SecureChannel.new cid lid p)
  | initiate (H : Bytes → Bytes) (c : SecureChannel) (e : TeeEnclave)
      (now : Int) (rand : Bytes) :
      Reachable c → Reachable (initiate_handshake H c e now rand).2
  | respond (H : Bytes → Bytes) (c : SecureChannel) (e : TeeEnclave)
      (init : HandshakeInit) (now : Int) (rand : Bytes) :
      Reachable c → Reachable (respond_to_handshake H c e init now rand).2
  | complete (H : Bytes → Bytes) (c : SecureChannel)
      (response : HandshakeResponse) (our_dh_public : String) (now : Int) :
      Reachable c → Reachable (complete_handshake H c response our_dh_public now).2
  | encrypt (H : Bytes → Bytes) (c : SecureChannel) (plaintext : Bytes) (now : Int) :
      Reachable c → Reachable (encrypt_message H c plaintext now).2
  | decrypt (H : Bytes → Bytes) (c : SecureChannel) (msg : SecureMessage) :
      Reachable c → Reachable (decrypt_message H c msg).2
  | close (c : SecureChannel) :
      Reachable c → Reachable (SecureChannel.close c)

/-- Success test for an Except result. -/
def isOkE {ε α : Type} : Except ε α → Bool
  | .ok _ => true
  | .error _ => false

/-
Shared lemmas about the byte-level primitives.
-/

theorem streamBlocks_length (block : Nat → Bytes) (hb : ∀ ctr, (block ctr).length = 32) :
    ∀ fuel ctr, (streamBlocks block fuel ctr).length = 32 * fuel := by
  intro fuel
  induction fuel with
  | zero => intro ctr; simp [streamBlocks]
  | succ n ih =>
    intro ctr
    simp [streamBlocks, hb, ih, Nat.mul_succ, Nat.add_comm]

theorem streamBlocks_mem (block : Nat → Bytes) (hb : ∀ ctr, ∀ b ∈ block ctr, b < 256) :
    ∀ fuel ctr, ∀ b ∈ streamBlocks block fuel ctr, b < 256 := by
  intro fuel
  induction fuel with
  | zero => intro ctr b hmem; simp [streamBlocks] at hmem
  | succ n ih =>
    intro ctr b hmem
    simp only [streamBlocks, List.mem_append] at hmem
    rcases hmem with h | h
    · exact hb ctr b h
    · exact ih (ctr + 1) b h

theorem take_length_of_le {l : Bytes} {n : Nat} (h : n ≤ l.length) :
    (l.take n).length = n := by
  simp [List.length_take, Nat.min_eq_left h]

theorem generate_keystream_length (H : Bytes → Bytes) (hH : HashLike H)
    (key nonce : Bytes) (len : Nat) : (generate_keystream H key nonce len).length = len := by
  unfold generate_keystream
  apply take_length_of_le
  rw [streamBlocks_length _ (fun ctr => (hH _).1)]
  exact Nat.le_mul_of_pos_left len (by norm_num)

theorem generate_keystream_mem (H : Bytes → Bytes) (hH : HashLike H)
    (key nonce : Bytes) (len : Nat) :
    ∀ b ∈ generate_keystream H key nonce len, b < 256 := by
  intro b hmem
  exact streamBlocks_mem _ (fun ctr => (hH _).2) len 0 b (List.mem_of_mem_take hmem)

theorem message_keystream_length (H : Bytes → Bytes) (hH : HashLike H)
    (key : Bytes) (seq len : Nat) : (message_keystream H key seq len).length = len := by
  unfold message_keystream
  apply take_length_of_le
  rw [streamBlocks_length _ (fun ctr => (hH _).1)]
  exact Nat.le_mul_of_pos_left len (by norm_num)

theorem message_keystream_mem (H : Bytes → Bytes) (hH : HashLike H)
    (key : Bytes) (seq len : Nat) : ∀ b ∈ message_keystream H key seq len, b < 256 := by
  intro b hmem
  exact streamBlocks_mem _ (fun ctr => (hH _).2) len 0 b (List.mem_of_mem_take hmem)

theorem file_keystream_length (H : Bytes → Bytes) (hH : HashLike H)
    (key : Bytes) (len : Nat) : (file_keystream H key len).length = len := by
  unfold file_keystream
  apply take_length_of_le
  rw [streamBlocks_length _ (fun ctr => (hH _).1)]
  exact Nat.le_mul_of_pos_left len (by norm_num)

theorem zipWith_xor_cancel :
    ∀ (pt ks : Bytes), pt.length ≤ ks.length →
      List.zipWith (fun b k => b ^^^ k) (List.zipWith (fun b k => b ^^^ k) pt ks) ks = pt := by
  intro pt
  induction pt with
  | nil => intro ks _; simp
  | cons b rest ih =>
    intro ks hlen
    cases ks with
    | nil => simp at hlen
    | cons k krest =>
      simp only [List.zipWith_cons_cons, List.cons.injEq]
      constructor
      · exact Nat.xor_cancel_right k b
      · exact ih krest (by simpa using hlen)

theorem zipWith_xor_mem :
    ∀ (l1 l2 : Bytes), (∀ x ∈ l1, x < 256) → (∀ x ∈ l2, x < 256) →
      ∀ x ∈ List.zipWith (fun b k => b ^^^ k) l1 l2, x < 256 := by
  intro l1
  induction l1 with
  | nil => intro l2 _ _ x hx; simp at hx
  | cons b rest ih =>
    intro l2 h1 h2 x hx
    cases l2 with
    | nil => simp at hx
    | cons k krest =>
      simp only [List.zipWith_cons_cons, List.mem_cons] at hx
      rcases hx with hx | hx
      · subst hx
        have hb : b < 2 ^ 8 := h1 b (by simp)
        have hk : k < 2 ^ 8 := h2 k (by simp)
        exact Nat.xor_lt_two_pow hb hk
      · exact ih krest (fun y hy => h1 y (by simp [hy])) (fun y hy => h2 y (by simp [hy])) x hx

theorem split3_take16 (a b c : Bytes) (ha : a.length = 16) :
    (a ++ b ++ c).take 16 = a := by
  rw [List.append_assoc, ← ha, List.take_left]

theorem split3_drop_mac (a b c : Bytes) (hc : c.length = 32) :
    (a ++ b ++ c).drop ((a ++ b ++ c).length - 32) = c := by
  have h : (a ++ b ++ c).length - 32 = (a ++ b).length := by
    simp only [List.length_append, hc]
    omega
  rw [h, List.drop_left]

theorem split3_mid (a b c : Bytes) (ha : a.length = 16) (hc : c.length = 32) :
    ((a ++ b ++ c).drop 16).take ((a ++ b ++ c).length - 48) = b := by
  have h1 : (a ++ b ++ c).drop 16 = b ++ c := by
    rw [List.append_assoc, ← ha, List.drop_left]
  have h2 : (a ++ b ++ c).length - 48 = b.length := by
    simp only [List.length_append, ha, hc]
    omega
  rw [h1, h2, List.take_left]

theorem split2_take (b c : Bytes) (hc : c.length = 32) :
    (b ++ c).take ((b ++ c).length - 32) = b := by
  have h : (b ++ c).length - 32 = b.length := by simp [List.length_append, hc]
  rw [h, List.take_left]

theorem split2_drop (b c : Bytes) (hc : c.length = 32) :
    (b ++ c).drop ((b ++ c).length - 32) = c := by
  have h : (b ++ c).length - 32 = b.length := by simp [List.length_append, hc]
  rw [h, List.drop_left]

theorem hexDigitVal_hexDigit : ∀ n : Fin 16, hexDigitVal (hexDigit n.val) = some n.val := by
  decide

theorem hexDecode_hexEncode (bs : Bytes) (h : ∀ x ∈ bs, x < 256) :
    hexDecode (hexEncode bs) = some bs := by
  unfold hexDecode hexEncode
  induction bs with
  | nil => simp [hexDecodeList]
  | cons b rest ih =>
    have hb : b < 256 := h b (by simp)
    have hhi : b / 16 < 16 := by omega
    have hlo : b % 16 < 16 := Nat.mod_lt _ (by norm_num)
    simp only [List.flatMap_cons, List.cons_append, List.nil_append]
    show hexDecodeList (hexDigit (b / 16) :: hexDigit (b % 16) ::
      rest.flatMap (fun b => [hexDigit (b / 16), hexDigit (b % 16)])) = some (b :: rest)
    rw [hexDecodeList]
    have h1 := hexDigitVal_hexDigit ⟨b / 16, hhi⟩
    have h2 := hexDigitVal_hexDigit ⟨b % 16, hlo⟩
    simp only [Fin.val_mk] at h1 h2
    rw [h1, h2]
    have hrest := ih (fun x hx => h x (by simp [hx]))
    simp only [hexEncode] at hrest
    rw [hrest]
    show some ((16 * (b / 16) + b % 16) :: rest) = some (b :: rest)
    have : 16 * (b / 16) + b % 16 = b := by omega
    rw [this]

theorem mapGet_insert_self {α : Type} (st : List (String × α)) (k : String) (v : α) :
    mapGet (mapInsert st k v) k = some v := by
  simp [mapGet, mapInsert, List.find?_cons_of_pos]

theorem mapGet_insert_ne {α : Type} (st : List (String × α)) (k kq : String) (v : α)
    (h : kq ≠ k) : mapGet (mapInsert st k v) kq = mapGet st kq := by
  unfold mapGet mapInsert
  rw [List.find?_cons_of_neg _ (by simpa using fun he => h he.symm)]
  congr 1
  induction st with
  | nil => simp
  | cons p rest ih =>
    by_cases hp : p.1 = k
    · rw [List.filter_cons_of_neg (by simp [hp]),
        List.find?_cons_of_neg _ (by simp [hp]; exact h.symm)]
      exact ih
    · rw [List.filter_cons_of_pos (by simp [hp])]
      by_cases hq : p.1 = kq
      · rw [List.find?_cons_of_pos _ (by simp [hq]), List.find?_cons_of_pos _ (by simp [hq])]
      · rw [List.find?_cons_of_neg _ (by simp [hq]), List.find?_cons_of_neg _ (by simp [hq])]
        exact ih

theorem leBytes_mem_lt : ∀ (w n : Nat), ∀ b ∈ leBytes w n, b < 256 := by
  intro w
  induction w with
  | zero => intro n b hb; simp [leBytes] at hb
  | succ w ih =>
    intro n b hb
    simp only [leBytes, List.mem_cons] at hb
    rcases hb with hb | hb
    · subst hb; exact Nat.mod_lt _ (by norm_num)
    · exact ih _ b hb

theorem leBytes_length : ∀ (w n : Nat), (leBytes w n).length = w := by
  intro w
  induction w with
  | zero => intro n; simp [leBytes]
  | succ w ih => intro n; simp [leBytes, ih]

theorem fromLeBytes_leBytes : ∀ (w n : Nat), fromLeBytes (leBytes w n) = n % 256 ^ w := by
  intro w
  induction w with
  | zero => intro n; simp [leBytes, fromLeBytes, Nat.mod_one]
  | succ w ih =>
    intro n
    rw [leBytes, fromLeBytes, ih]
    have hpow : (256 : Nat) ^ (w + 1) = 256 * 256 ^ w := by ring
    rw [hpow, Nat.mod_mul]

theorem bytes_to_f64_append8 (c rest : Bytes) (hc : c.length = 8) :
    bytes_to_f64 (c ++ rest) = fromLeBytes c :: bytes_to_f64 rest := by
  rcases c with _ | ⟨b0, c⟩; · simp at hc
  rcases c with _ | ⟨b1, c⟩; · simp at hc
  rcases c with _ | ⟨b2, c⟩; · simp at hc
  rcases c with _ | ⟨b3, c⟩; · simp at hc
  rcases c with _ | ⟨b4, c⟩; · simp at hc
  rcases c with _ | ⟨b5, c⟩; · simp at hc
  rcases c with _ | ⟨b6, c⟩; · simp at hc
  rcases c with _ | ⟨b7, c⟩; · simp at hc
  rcases c with _ | ⟨b8, c⟩
  · rfl
  · simp at hc

theorem bytes_to_f64_flatMap (l : List Nat) (h : ∀ x ∈ l, x < 2 ^ 64) :
    bytes_to_f64 (l.flatMap (leBytes 8)) = l := by
  induction l with
  | nil => simp [bytes_to_f64]
  | cons x rest ih =>
    have hx : x < 2 ^ 64 := h x (by simp)
    rw [List.flatMap_cons, bytes_to_f64_append8 _ _ (leBytes_length 8 x),
      fromLeBytes_leBytes, ih (fun y hy => h y (by simp [hy]))]
    congr 1
    have h2 : (256 : Nat) ^ 8 = 2 ^ 64 := by norm_num
    rw [h2]
    exact Nat.mod_eq_of_lt hx

theorem decrypt_encrypt (H : Bytes → Bytes) (hH : HashLike H) (e : TeeEnclave)
    (nonce plaintext : Bytes) (hn : nonce.length = 16) :
    e.decrypt H (e.encrypt H nonce plaintext) = .ok plaintext := by
  have hks : (generate_keystream H e.sealing_key nonce plaintext.length).length
      = plaintext.length := generate_keystream_length H hH _ _ _
  set ks := generate_keystream H e.sealing_key nonce plaintext.length with hksdef
  set ct := List.zipWith (fun b k => b ^^^ k) plaintext ks with hctdef
  have hctlen : ct.length = plaintext.length := by
    rw [hctdef, List.length_zipWith, hks, Nat.min_self]
  set mac := compute_mac H e.sealing_key nonce plaintext with hmacdef
  have hmaclen : mac.length = 32 := (hH _).1
  have henc : e.encrypt H nonce plaintext = nonce ++ ct ++ mac := by
    rw [TeeEnclave.encrypt]
  have hlen : (nonce ++ ct ++ mac).length = plaintext.length + 48 := by
    simp only [List.length_append, hn, hctlen, hmaclen]
    omega
  have hnot : ¬ (nonce ++ ct ++ mac).length < 48 := by rw [hlen]; omega
  rw [henc]
  simp only [TeeEnclave.decrypt]
  rw [if_neg hnot, split3_take16 nonce ct mac hn, split3_drop_mac nonce ct mac hmaclen,
    split3_mid nonce ct mac hn hmaclen, hctlen, ← hksdef, hctdef,
    zipWith_xor_cancel plaintext ks (le_of_eq hks.symm), ← hmacdef]
  rw [if_neg (fun h => h rfl)]

/-- Claim C1: for every enclave instance, key, plaintext (empty included)
and 16-byte nonce the sealing draws, `seal` succeeds (it is total) and a
subsequent `unseal` of the same key on the unchanged instance returns
exactly the plaintext; the prior store contents are arbitrary, so a
previously sealed value under the same key is replaced (upsert). -/
theorem seal_unseal_roundtrip (H : Bytes → Bytes) (e : TeeEnclave) (key : String)
    (plaintext nonce : Bytes) (hH : HashLike H) (hn : nonce.length = 16) :
    (e.seal H nonce key plaintext).unseal H key = .ok plaintext := by
  unfold TeeEnclave.seal TeeEnclave.unseal
  rw [mapGet_insert_self]
  exact decrypt_encrypt H hH _ nonce plaintext hn

def enclaveW : TeeEnclave := TeeEnclave.new toyHash .Simulated false ("enclave-w") 0

/-- Witness for C1 at a concrete enclave, key, plaintext and nonce. -/
theorem seal_unseal_roundtrip_witness :
    (enclaveW.seal toyHash (List.range 16) ("k1") [1, 2, 3]).unseal toyHash ("k1") =
      .ok [1, 2, 3] :=
  seal_unseal_roundtrip toyHash enclaveW ("k1") [1, 2, 3] (List.range 16)
    toyHash_hashLike (by decide)

/-
Branch lemmas for verify_quote, one per check of the source's ordered
cascade; each takes the pass conditions of the earlier checks and the
fail (or pass) condition of its own.
-/

theorem verify_quote_expired_of (H : Bytes → Bytes) (now : Int) (q : AttestationQuote)
    (p : AttestationPolicy) (h1 : p.max_quote_age_secs < now - q.timestamp) :
    verify_quote H now q p = .Expired := by
  unfold verify_quote
  rw [if_pos h1]

theorem verify_quote_invalid_of (H : Bytes → Bytes) (now : Int) (q : AttestationQuote)
    (p : AttestationPolicy) (h1 : now - q.timestamp ≤ p.max_quote_age_secs)
    (h2 : q.signature ≠ quote_signature H q.measurement q.nonce
      q.enclave_data.enclave_id q.enclave_data.sealed_adapters) :
    verify_quote H now q p = .Invalid ("Quote signature mismatch") := by
  unfold verify_quote
  rw [if_neg (not_lt.mpr h1), if_pos h2]

theorem verify_quote_sim_untrusted_of (H : Bytes → Bytes) (now : Int)
    (q : AttestationQuote) (p : AttestationPolicy)
    (h1 : now - q.timestamp ≤ p.max_quote_age_secs)
    (h2 : q.signature = quote_signature H q.measurement q.nonce
      q.enclave_data.enclave_id q.enclave_data.sealed_adapters)
    (h3 : p.allow_simulated = false) (h4 : q.security_level = .Software) :
    verify_quote H now q p =
      .Untrusted ("Software-simulated enclave not allowed by policy") := by
  unfold verify_quote
  rw [if_neg (not_lt.mpr h1), if_neg (fun hne => hne h2), if_pos ⟨h3, h4⟩]

theorem verify_quote_level_untrusted_of (H : Bytes → Bytes) (now : Int)
    (q : AttestationQuote) (p : AttestationPolicy)
    (h1 : now - q.timestamp ≤ p.max_quote_age_secs)
    (h2 : q.signature = quote_signature H q.measurement q.nonce
      q.enclave_data.enclave_id q.enclave_data.sealed_adapters)
    (h3 : ¬ (p.allow_simulated = false ∧ q.security_level = .Software))
    (h4 : p.min_security_level = .Hardware) (h5 : q.security_level ≠ .Hardware) :
    verify_quote H now q p = .Untrusted ("Security level "
      ++ q.security_level.debugStr ++ " below minimum "
      ++ p.min_security_level.debugStr) := by
  unfold verify_quote
  rw [if_neg (not_lt.mpr h1), if_neg (fun hne => hne h2), if_neg h3,
    if_pos (by rw [h4]; simpa [min_level_ok] using h5)]

theorem verify_quote_svn_untrusted_of (H : Bytes → Bytes) (now : Int)
    (q : AttestationQuote) (p : AttestationPolicy)
    (h1 : now - q.timestamp ≤ p.max_quote_age_secs)
    (h2 : q.signature = quote_signature H q.measurement q.nonce
      q.enclave_data.enclave_id q.enclave_data.sealed_adapters)
    (h3 : ¬ (p.allow_simulated = false ∧ q.security_level = .Software))
    (h4 : min_level_ok p.min_security_level q.security_level = true)
    (h5 : q.measurement.isv_svn < p.min_svn) :
    verify_quote H now q p = .Untrusted ("SVN "
      ++ Nat.repr q.measurement.isv_svn ++ " below minimum "
      ++ Nat.repr p.min_svn) := by
  unfold verify_quote
  rw [if_neg (not_lt.mpr h1), if_neg (fun hne => hne h2), if_neg h3,
    if_neg (by simp [h4]), if_pos h5]

theorem verify_quote_mrenclave_untrusted_of (H : Bytes → Bytes) (now : Int)
    (q : AttestationQuote) (p : AttestationPolicy)
    (h1 : now - q.timestamp ≤ p.max_quote_age_secs)
    (h2 : q.signature = quote_signature H q.measurement q.nonce
      q.enclave_data.enclave_id q.enclave_data.sealed_adapters)
    (h3 : ¬ (p.allow_simulated = false ∧ q.security_level = .Software))
    (h4 : min_level_ok p.min_security_level q.security_level = true)
    (h5 : p.min_svn ≤ q.measurement.isv_svn)
    (h6 : p.trusted_enclaves ≠ [])
    (h7 : p.trusted_enclaves.contains q.measurement.mrenclave = false) :
    verify_quote H now q p = .Untrusted ("MRENCLAVE not in trusted list") := by
  unfold verify_quote
  rw [if_neg (not_lt.mpr h1), if_neg (fun hne => hne h2), if_neg h3,
    if_neg (by simp [h4]), if_neg (not_lt.mpr h5), if_pos ⟨h6, h7⟩]

theorem verify_quote_mrsigner_untrusted_of (H : Bytes → Bytes) (now : Int)
    (q : AttestationQuote) (p : AttestationPolicy)
    (h1 : now - q.timestamp ≤ p.max_quote_age_secs)
    (h2 : q.signature = quote_signature H q.measurement q.nonce
      q.enclave_data.enclave_id q.enclave_data.sealed_adapters)
    (h3 : ¬ (p.allow_simulated = false ∧ q.security_level = .Software))
    (h4 : min_level_ok p.min_security_level q.security_level = true)
    (h5 : p.min_svn ≤ q.measurement.isv_svn)
    (h6 : ¬ (p.trusted_enclaves ≠ [] ∧
      p.trusted_enclaves.contains q.measurement.mrenclave = false))
    (h7 : p.trusted_signers ≠ [])
    (h8 : p.trusted_signers.contains q.measurement.mrsigner = false) :
    verify_quote H now q p = .Untrusted ("MRSIGNER not in trusted list") := by
  unfold verify_quote
  rw [if_neg (not_lt.mpr h1), if_neg (fun hne => hne h2), if_neg h3,
    if_neg (by simp [h4]), if_neg (not_lt.mpr h5), if_neg h6, if_pos ⟨h7, h8⟩]

theorem verify_quote_trusted_of (H : Bytes → Bytes) (now : Int)
    (q : AttestationQuote) (p : AttestationPolicy)
    (h1 : now - q.timestamp ≤ p.max_quote_age_secs)
    (h2 : q.signature = quote_signature H q.measurement q.nonce
      q.enclave_data.enclave_id q.enclave_data.sealed_adapters)
    (h3 : ¬ (p.allow_simulated = false ∧ q.security_level = .Software))
    (h4 : min_level_ok p.min_security_level q.security_level = true)
    (h5 : p.min_svn ≤ q.measurement.isv_svn)
    (h6 : ¬ (p.trusted_enclaves ≠ [] ∧
      p.trusted_enclaves.contains q.measurement.mrenclave = false))
    (h7 : ¬ (p.trusted_signers ≠ [] ∧
      p.trusted_signers.contains q.measurement.mrsigner = false)) :
    verify_quote H now q p = .Trusted q.enclave_data.enclave_id q.security_level := by
  unfold verify_quote
  rw [if_neg (not_lt.mpr h1), if_neg (fun hne => hne h2), if_neg h3,
    if_neg (by simp [h4]), if_neg (not_lt.mpr h5), if_neg h6, if_neg h7]

/-- Claim C2: verify_quote performs its checks in the fixed order
freshness, signature, simulated-enclave policy, minimum security level,
SVN, trusted-measurement list, trusted-signer list, returning the verdict
of the first failing check and Trusted only when all pass; in particular
a Hardware minimum is satisfied only by a Hardware quote, so a fresh,
correctly signed Degraded quote is rejected as Untrusted (fourth
conjunct). -/
theorem verify_quote_ordered_checks (H : Bytes → Bytes) (now : Int)
    (q : AttestationQuote) (p : AttestationPolicy) :
    (p.max_quote_age_secs < now - q.timestamp → verify_quote H now q p = .Expired)
    ∧ (now - q.timestamp ≤ p.max_quote_age_secs →
        q.signature ≠ quote_signature H q.measurement q.nonce
          q.enclave_data.enclave_id q.enclave_data.sealed_adapters →
        verify_quote H now q p = .Invalid ("Quote signature mismatch"))
    ∧ (now - q.timestamp ≤ p.max_quote_age_secs →
        q.signature = quote_signature H q.measurement q.nonce
          q.enclave_data.enclave_id q.enclave_data.sealed_adapters →
        p.allow_simulated = false → q.security_level = .Software →
        verify_quote H now q p =
          .Untrusted ("Software-simulated enclave not allowed by policy"))
    ∧ (now - q.timestamp ≤ p.max_quote_age_secs →
        q.signature = quote_signature H q.measurement q.nonce
          q.enclave_data.enclave_id q.enclave_data.sealed_adapters →
        ¬ (p.allow_simulated = false ∧ q.security_level = .Software) →
        p.min_security_level = .Hardware → q.security_level ≠ .Hardware →
        verify_quote H now q p = .Untrusted ("Security level "
          ++ q.security_level.debugStr ++ " below minimum "
          ++ p.min_security_level.debugStr))
    ∧ (now - q.timestamp ≤ p.max_quote_age_secs →
        q.signature = quote_signature H q.measurement q.nonce
          q.enclave_data.enclave_id q.enclave_data.sealed_adapters →
        ¬ (p.allow_simulated = false ∧ q.security_level = .Software) →
        min_level_ok p.min_security_level q.security_level = true →
        q.measurement.isv_svn < p.min_svn →
        verify_quote H now q p = .Untrusted ("SVN "
          ++ Nat.repr q.measurement.isv_svn ++ " below minimum "
          ++ Nat.repr p.min_svn))
    ∧ (now - q.timestamp ≤ p.max_quote_age_secs →
        q.signature = quote_signature H q.measurement q.nonce
          q.enclave_data.enclave_id q.enclave_data.sealed_adapters →
        ¬ (p.allow_simulated = false ∧ q.security_level = .Software) →
        min_level_ok p.min_security_level q.security_level = true →
        p.min_svn ≤ q.measurement.isv_svn →
        p.trusted_enclaves ≠ [] →
        p.trusted_enclaves.contains q.measurement.mrenclave = false →
        verify_quote H now q p = .Untrusted ("MRENCLAVE not in trusted list"))
    ∧ (now - q.timestamp ≤ p.max_quote_age_secs →
        q.signature = quote_signature H q.measurement q.nonce
          q.enclave_data.enclave_id q.enclave_data.sealed_adapters →
        ¬ (p.allow_simulated = false ∧ q.security_level = .Software) →
        min_level_ok p.min_security_level q.security_level = true →
        p.min_svn ≤ q.measurement.isv_svn →
        ¬ (p.trusted_enclaves ≠ [] ∧
          p.trusted_enclaves.contains q.measurement.mrenclave = false) →
        p.trusted_signers ≠ [] →
        p.trusted_signers.contains q.measurement.mrsigner = false →
        verify_quote H now q p = .Untrusted ("MRSIGNER not in trusted list"))
    ∧ (now - q.timestamp ≤ p.max_quote_age_secs →
        q.signature = quote_signature H q.measurement q.nonce
          q.enclave_data.enclave_id q.enclave_data.sealed_adapters →
        ¬ (p.allow_simulated = false ∧ q.security_level = .Software) →
        min_level_ok p.min_security_level q.security_level = true →
        p.min_svn ≤ q.measurement.isv_svn →
        ¬ (p.trusted_enclaves ≠ [] ∧
          p.trusted_enclaves.contains q.measurement.mrenclave = false) →
        ¬ (p.trusted_signers ≠ [] ∧
          p.trusted_signers.contains q.measurement.mrsigner = false) →
        verify_quote H now q p = .Trusted q.enclave_data.enclave_id q.security_level) :=
  ⟨verify_quote_expired_of H now q p,
   verify_quote_invalid_of H now q p,
   verify_quote_sim_untrusted_of H now q p,
   verify_quote_level_untrusted_of H now q p,
   verify_quote_svn_untrusted_of H now q p,
   verify_quote_mrenclave_untrusted_of H now q p,
   verify_quote_mrsigner_untrusted_of H now q p,
   verify_quote_trusted_of H now q p⟩

def measurementW : EnclaveMeasurement :=
  EnclaveMeasurement.compute toyHash ("code-w") ("signer-w") 1 1

/-- Concrete fresh, correctly-signed quote with security level Degraded. -/
def quoteDeg : AttestationQuote :=
  { measurement := measurementW
    nonce := "n"
    signature := quote_signature toyHash measurementW ("n") ("e-deg") 0
    backend := .IntelSgx
    security_level := .Degraded
    timestamp := 0
    enclave_data := { enclave_id := "e-deg", sealed_adapters := 0, uptime_secs := 0 } }

/-- Witness for C2: the strict policy (Hardware minimum) rejects the
fresh, correctly-signed Degraded quote as Untrusted. -/
theorem verify_quote_ordered_checks_witness :
    verify_quote toyHash 0 quoteDeg (strict_policy []) =
      .Untrusted ("Security level Degraded below minimum Hardware") := by
  have h := (verify_quote_ordered_checks toyHash 0 quoteDeg (strict_policy [])).2.2.2.1
    (by decide) rfl (by decide) rfl (by decide)
  simpa using h

/-- Claim C10: the minimum-security-level check constrains the quote only
when the policy requires Hardware; a Software or Degraded minimum passes
every quote level, and in particular a policy requiring at least Degraded
still accepts a Software-level quote when the other checks pass. -/
theorem min_level_non_hardware_passes (H : Bytes → Bytes) (now : Int)
    (q : AttestationQuote) (p : AttestationPolicy) :
    (p.min_security_level = .Software ∨ p.min_security_level = .Degraded →
      min_level_ok p.min_security_level q.security_level = true)
    ∧ (p.min_security_level = .Degraded → q.security_level = .Software →
        now - q.timestamp ≤ p.max_quote_age_secs →
        q.signature = quote_signature H q.measurement q.nonce
          q.enclave_data.enclave_id q.enclave_data.sealed_adapters →
        p.allow_simulated = true →
        p.min_svn ≤ q.measurement.isv_svn →
        ¬ (p.trusted_enclaves ≠ [] ∧
          p.trusted_enclaves.contains q.measurement.mrenclave = false) →
        ¬ (p.trusted_signers ≠ [] ∧
          p.trusted_signers.contains q.measurement.mrsigner = false) →
        verify_quote H now q p = .Trusted q.enclave_data.enclave_id q.security_level) := by
  constructor
  · intro h
    rcases h with h | h <;> rw [h] <;> rfl
  · intro hmin hlvl h1 h2 hsim h5 h6 h7
    exact verify_quote_trusted_of H now q p h1 h2
      (fun hc => by rw [hsim] at hc; exact absurd hc.1 (by decide))
      (by rw [hmin]; rfl) h5 h6 h7

/-- Concrete fresh, correctly-signed quote with security level Software. -/
def quoteSoft : AttestationQuote :=
  { measurement := measurementW
    nonce := "n"
    signature := quote_signature toyHash measurementW ("n") ("e-soft") 0
    backend := .Simulated
    security_level := .Software
    timestamp := 0
    enclave_data := { enclave_id := "e-soft", sealed_adapters := 0, uptime_secs := 0 } }

/-- Concrete policy requiring at least Degraded. -/
def policyDeg : AttestationPolicy :=
  { default_policy with min_security_level := .Degraded }

/-- Witness for C10: the Degraded-minimum policy accepts the Software
quote. -/
theorem min_level_non_hardware_passes_witness :
    verify_quote toyHash 0 quoteSoft policyDeg =
      .Trusted ("e-soft") SecurityLevel.Software := by
  have h := (min_level_non_hardware_passes toyHash 0 quoteSoft policyDeg).2
    rfl rfl (by decide) rfl rfl (by decide) (by decide) (by decide)
  simpa using h

/-
Reduction lemmas for the channel message operations, one per shape of the
session-key option.
-/

theorem decrypt_message_no_key (H : Bytes → Bytes) (c : SecureChannel)
    (msg : SecureMessage) (hk : c.session_key = none) :
    decrypt_message H c msg = (.error (.EnclaveError ("Channel not established")), c) := by
  unfold decrypt_message
  rw [hk]

theorem decrypt_message_some_key (H : Bytes → Bytes) (c : SecureChannel)
    (msg : SecureMessage) (k : Bytes) (hk : c.session_key = some k) :
    decrypt_message H c msg =
      if msg.sequence < c.recv_counter then
        (.error (.IntegrityError ("Replay detected")), c)
      else
        match hexDecode msg.ciphertext with
        | none => (.error (.SealingError ("Hex decode failed")), c)
        | some ciphertext_bytes =>
          if msg.mac ≠ message_mac H k msg.sequence
              (List.zipWith (fun b x => b ^^^ x) ciphertext_bytes
                (message_keystream H k msg.sequence ciphertext_bytes.length)) then
            (.error (.IntegrityError ("Message MAC mismatch")), c)
          else
            (.ok (List.zipWith (fun b x => b ^^^ x) ciphertext_bytes
                (message_keystream H k msg.sequence ciphertext_bytes.length)),
             { c with recv_counter := msg.sequence + 1 }) := by
  unfold decrypt_message
  rw [hk]

theorem encrypt_message_no_key (H : Bytes → Bytes) (c : SecureChannel)
    (plaintext : Bytes) (now : Int) (hk : c.session_key = none) :
    encrypt_message H c plaintext now =
      (.error (.EnclaveError ("Channel not established")), c) := by
  unfold encrypt_message
  rw [hk]

theorem encrypt_message_some_key (H : Bytes → Bytes) (c : SecureChannel)
    (plaintext : Bytes) (now : Int) (k : Bytes) (hk : c.session_key = some k) :
    encrypt_message H c plaintext now =
      (.ok { channel_id := c.channel_id
             sequence := c.send_counter
             ciphertext := hexEncode (List.zipWith (fun b x => b ^^^ x) plaintext
               (message_keystream H k c.send_counter plaintext.length))
             mac := message_mac H k c.send_counter plaintext
             timestamp := now },
       { c with send_counter := c.send_counter + 1 }) := by
  unfold encrypt_message
  rw [hk]

/-- Claim C3: on a channel holding a session key, `decrypt_message` fails
with IntegrityError "Replay detected" whenever the sequence is below the
receive counter; every failure returns no plaintext and leaves the channel
(and so the receive counter) unchanged; success sets the receive counter
to sequence + 1, after which resubmitting the identical message fails as a
replay, while sequences at or above the counter are never rejected as
replays. -/
theorem decrypt_message_replay_protection (H : Bytes → Bytes) (c : SecureChannel)
    (k : Bytes) (msg : SecureMessage) (hk : c.session_key = some k) :
    (msg.sequence < c.recv_counter →
      decrypt_message H c msg = (.error (.IntegrityError ("Replay detected")), c))
    ∧ (∀ err, (decrypt_message H c msg).1 = .error err →
        (decrypt_message H c msg).2 = c)
    ∧ (∀ pt, (decrypt_message H c msg).1 = .ok pt →
        (decrypt_message H c msg).2 = { c with recv_counter := msg.sequence + 1 })
    ∧ (∀ pt, (decrypt_message H c msg).1 = .ok pt →
        (decrypt_message H ((decrypt_message H c msg).2) msg).1 =
          .error (.IntegrityError ("Replay detected")))
    ∧ (c.recv_counter ≤ msg.sequence →
        ∀ err, (decrypt_message H c msg).1 = .error err →
          err ≠ .IntegrityError ("Replay detected")) := by
  have hs := decrypt_message_some_key H c msg k hk
  refine ⟨?_, ?_, ?_, ?_, ?_⟩
  · intro hseq
    rw [hs, if_pos hseq]
  · intro err herr
    rw [hs] at herr ⊢
    by_cases hseq : msg.sequence < c.recv_counter
    · rw [if_pos hseq]
    · rw [if_neg hseq] at herr ⊢
      cases hdec : hexDecode msg.ciphertext with
      | none => simp only [hdec]
      | some cb =>
        simp only [hdec] at herr ⊢
        by_cases hmac : msg.mac ≠ message_mac H k msg.sequence
            (List.zipWith (fun b x => b ^^^ x) cb
              (message_keystream H k msg.sequence cb.length))
        · rw [if_pos hmac]
        · rw [if_neg hmac] at herr
          simp at herr
  · intro pt hok
    rw [hs] at hok ⊢
    by_cases hseq : msg.sequence < c.recv_counter
    · rw [if_pos hseq] at hok
      simp at hok
    · rw [if_neg hseq] at hok ⊢
      cases hdec : hexDecode msg.ciphertext with
      | none =>
        simp only [hdec] at hok
        exact Except.noConfusion hok
      | some cb =>
        simp only [hdec] at hok ⊢
        by_cases hmac : msg.mac ≠ message_mac H k msg.sequence
            (List.zipWith (fun b x => b ^^^ x) cb
              (message_keystream H k msg.sequence cb.length))
        · rw [if_pos hmac] at hok
          simp at hok
        · rw [if_neg hmac]
  · intro pt hok
    have h2 : (decrypt_message H c msg).2 = { c with recv_counter := msg.sequence + 1 } := by
      rw [hs] at hok ⊢
      by_cases hseq : msg.sequence < c.recv_counter
      · rw [if_pos hseq] at hok
        simp at hok
      · rw [if_neg hseq] at hok ⊢
        cases hdec : hexDecode msg.ciphertext with
        | none =>
          simp only [hdec] at hok
          exact Except.noConfusion hok
        | some cb =>
          simp only [hdec] at hok ⊢
          by_cases hmac : msg.mac ≠ message_mac H k msg.sequence
              (List.zipWith (fun b x => b ^^^ x) cb
                (message_keystream H k msg.sequence cb.length))
          · rw [if_pos hmac] at hok
            simp at hok
          · rw [if_neg hmac]
    rw [h2]
    have hk2 : ({ c with recv_counter := msg.sequence + 1 } :
        SecureChannel).session_key = some k := hk
    rw [decrypt_message_some_key H _ msg k hk2, if_pos (Nat.lt_succ_self _)]
  · intro hle err herr hbad
    subst hbad
    rw [hs, if_neg (not_lt.mpr hle)] at herr
    cases hdec : hexDecode msg.ciphertext with
    | none =>
      simp only [hdec] at herr
      simp at herr
    | some cb =>
      simp only [hdec] at herr
      by_cases hmac : msg.mac ≠ message_mac H k msg.sequence
          (List.zipWith (fun b x => b ^^^ x) cb
            (message_keystream H k msg.sequence cb.length))
      · rw [if_pos hmac] at herr
        simp at herr
      · rw [if_neg hmac] at herr
        simp at herr

def chanW : SecureChannel :=
  { SecureChannel.new ("ch-w") ("local-w") default_policy with
      state := ChannelState.Established
      session_key := some (List.range 32)
      recv_counter := 5 }

def msgW : SecureMessage :=
  { channel_id := "ch-w", sequence := 3, ciphertext := "00", mac := "beef", timestamp := 0 }

/-- Witness for C3: a message replaying sequence 3 below receive counter 5
is rejected and the channel is unchanged. -/
theorem decrypt_message_replay_protection_witness :
    decrypt_message toyHash chanW msgW =
      (.error (.IntegrityError ("Replay detected")), chanW) :=
  (decrypt_message_replay_protection toyHash chanW (List.range 32) msgW rfl).1 (by decide)

/-
Channel session-key invariants (claims C6, C8).
-/

theorem encrypt_message_ok_key (H : Bytes → Bytes) (c : SecureChannel)
    (plaintext : Bytes) (now : Int)
    (h : isOkE (encrypt_message H c plaintext now).1 = true) :
    c.session_key.isSome = true := by
  cases hk : c.session_key with
  | none =>
    rw [encrypt_message_no_key H c plaintext now hk] at h
    simp [isOkE] at h
  | some k => rfl

theorem decrypt_message_ok_key (H : Bytes → Bytes) (c : SecureChannel)
    (msg : SecureMessage) (h : isOkE (decrypt_message H c msg).1 = true) :
    c.session_key.isSome = true := by
  cases hk : c.session_key with
  | none =>
    rw [decrypt_message_no_key H c msg hk] at h
    simp [isOkE] at h
  | some k => rfl

theorem encrypt_message_state_key (H : Bytes → Bytes) (c : SecureChannel)
    (plaintext : Bytes) (now : Int) :
    (encrypt_message H c plaintext now).2.state = c.state
    ∧ (encrypt_message H c plaintext now).2.session_key = c.session_key := by
  unfold encrypt_message
  split
  · exact ⟨rfl, rfl⟩
  · exact ⟨rfl, rfl⟩

theorem decrypt_message_state_key (H : Bytes → Bytes) (c : SecureChannel)
    (msg : SecureMessage) :
    (decrypt_message H c msg).2.state = c.state
    ∧ (decrypt_message H c msg).2.session_key = c.session_key := by
  unfold decrypt_message
  split
  · exact ⟨rfl, rfl⟩
  · split
    · exact ⟨rfl, rfl⟩
    · split
      · exact ⟨rfl, rfl⟩
      · dsimp only
        split
        · exact ⟨rfl, rfl⟩
        · exact ⟨rfl, rfl⟩

theorem reachable_established_key (c : SecureChannel) (h : Reachable c) :
    c.state = ChannelState.Established → c.session_key.isSome = true := by
  induction h with
  | new cid lid p =>
    intro hst
    exact ChannelState.noConfusion hst
  | initiate H c e now rand hc ih =>
    intro hst
    exact ChannelState.noConfusion hst
  | respond H c e init now rand hc ih =>
    unfold respond_to_handshake
    cases hv : verify_quote H now init.quote c.policy with
    | Trusted rid rlvl => intro _; rfl
    | Untrusted r => intro hst; exact ChannelState.noConfusion hst
    | Invalid r => intro hst; exact ChannelState.noConfusion hst
    | Expired => intro hst; exact ChannelState.noConfusion hst
  | complete H c response our_dh now hc ih =>
    unfold complete_handshake
    by_cases ha : response.accepted = false
    · rw [if_pos ha]
      intro hst
      exact ChannelState.noConfusion hst
    · rw [if_neg ha]
      cases hv : verify_quote H now response.quote c.policy with
      | Trusted rid rlvl => intro _; rfl
      | Untrusted r => intro hst; exact ChannelState.noConfusion hst
      | Invalid r => intro hst; exact ChannelState.noConfusion hst
      | Expired => intro hst; exact ChannelState.noConfusion hst
  | encrypt H c plaintext now hc ih =>
    intro hst
    rw [(encrypt_message_state_key H c plaintext now).1] at hst
    rw [(encrypt_message_state_key H c plaintext now).2]
    exact ih hst
  | decrypt H c msg hc ih =>
    intro hst
    rw [(decrypt_message_state_key H c msg).1] at hst
    rw [(decrypt_message_state_key H c msg).2]
    exact ih hst
  | close c hc ih =>
    intro hst
    exact ChannelState.noConfusion hst

/-- Claim C6 (amended): in every reachable channel state, an Established
state implies a session key is present, and neither message operation
succeeds without one; but the converse fails — the handshake operations
never clear the key, so a reachable Attesting state can hold a key and
encrypt successfully (see the counterexample). -/
theorem channel_key_state_invariant (c : SecureChannel) (h : Reachable c) :
    (c.state = ChannelState.Established → c.session_key.isSome = true)
    ∧ (∀ H plaintext now, isOkE (encrypt_message H c plaintext now).1 = true →
        c.session_key.isSome = true)
    ∧ (∀ H msg, isOkE (decrypt_message H c msg).1 = true →
        c.session_key.isSome = true) :=
  ⟨reachable_established_key c h,
   fun H plaintext now hok => encrypt_message_ok_key H c plaintext now hok,
   fun H msg hok => decrypt_message_ok_key H c msg hok⟩

/-- Witness for (amended) C6 at the freshly constructed channel. -/
theorem channel_key_state_invariant_witness :
    ((SecureChannel.new ("ch-w2") ("l2") default_policy).state =
        ChannelState.Established →
      (SecureChannel.new ("ch-w2") ("l2") default_policy).session_key.isSome = true)
    ∧ (∀ H plaintext now,
        isOkE (encrypt_message H (SecureChannel.new ("ch-w2") ("l2") default_policy)
          plaintext now).1 = true →
        (SecureChannel.new ("ch-w2") ("l2") default_policy).session_key.isSome = true)
    ∧ (∀ H msg,
        isOkE (decrypt_message H (SecureChannel.new ("ch-w2") ("l2") default_policy)
          msg).1 = true →
        (SecureChannel.new ("ch-w2") ("l2") default_policy).session_key.isSome = true) :=
  channel_key_state_invariant (SecureChannel.new ("ch-w2") ("l2") default_policy)
    (Reachable.new ("ch-w2") ("l2") default_policy)

def enclaveA : TeeEnclave := TeeEnclave.new toyHash .Simulated false ("enclave-a") 0

def enclaveB : TeeEnclave := TeeEnclave.new toyHash .Simulated false ("enclave-b") 0

def initW : HandshakeInit :=
  { channel_id := "ch-x"
    quote := generate_quote toyHash enclaveA ("channel-ch-x-init") 0
    dh_public := "aa" }

def chanEst : SecureChannel :=
  (respond_to_handshake toyHash (SecureChannel.new ("ch-b") ("local-b") default_policy)
    enclaveB initW 0 [1, 2, 3]).2

def chanC6 : SecureChannel := (initiate_handshake toyHash chanEst enclaveA 0 [4]).2

/-- Counterexample to C6 as stated: a channel reachable through the
public operations (respond to a trusted handshake, then initiate a new
handshake) is in state Attesting yet still holds a session key, and
encrypt_message succeeds in that non-Established state. -/
theorem channel_key_state_invariant_cex :
    Reachable chanC6 ∧ chanC6.state = ChannelState.Attesting
    ∧ chanC6.session_key.isSome = true
    ∧ isOkE (encrypt_message toyHash chanC6 [1] 0).1 = true := by
  refine ⟨?_, rfl, ?_, ?_⟩
  · exact Reachable.initiate toyHash chanEst enclaveA 0 [4]
      (Reachable.respond toyHash (SecureChannel.new ("ch-b") ("local-b") default_policy)
        enclaveB initW 0 [1, 2, 3]
        (Reachable.new ("ch-b") ("local-b") default_policy))
  · decide
  · decide

/-- Claim C8 (amended): the handshake operations are not guarded by the
current state: initiate_handshake sets any channel — Closed and
Established ones included — to Attesting, respond_to_handshake yields
Established or Closed and complete_handshake yields Established or
Closed regardless of the starting state; close always yields Closed, and
the message operations never change the state.  So Established and Closed
are terminal only for the message operations, not for the handshake. -/
theorem handshake_state_transitions (H : Bytes → Bytes) (c : SecureChannel)
    (e : TeeEnclave) (init : HandshakeInit) (response : HandshakeResponse)
    (our_dh : String) (now : Int) (rand plaintext : Bytes) (msg : SecureMessage) :
    (initiate_handshake H c e now rand).2.state = ChannelState.Attesting
    ∧ ((respond_to_handshake H c e init now rand).2.state = ChannelState.Established
        ∨ (respond_to_handshake H c e init now rand).2.state = ChannelState.Closed)
    ∧ ((complete_handshake H c response our_dh now).2.state = ChannelState.Established
        ∨ (complete_handshake H c response our_dh now).2.state = ChannelState.Closed)
    ∧ (SecureChannel.close c).state = ChannelState.Closed
    ∧ (encrypt_message H c plaintext now).2.state = c.state
    ∧ (decrypt_message H c msg).2.state = c.state := by
  refine ⟨rfl, ?_, ?_, rfl, ?_, ?_⟩
  · unfold respond_to_handshake
    cases hv : verify_quote H now init.quote c.policy with
    | Trusted rid rlvl => exact Or.inl rfl
    | Untrusted r => exact Or.inr rfl
    | Invalid r => exact Or.inr rfl
    | Expired => exact Or.inr rfl
  · unfold complete_handshake
    by_cases ha : response.accepted = false
    · rw [if_pos ha]; exact Or.inr rfl
    · rw [if_neg ha]
      cases hv : verify_quote H now response.quote c.policy with
      | Trusted rid rlvl => exact Or.inl rfl
      | Untrusted r => exact Or.inr rfl
      | Invalid r => exact Or.inr rfl
      | Expired => exact Or.inr rfl
  · exact (encrypt_message_state_key H c plaintext now).1
  · exact (decrypt_message_state_key H c msg).1

def chanClosed : SecureChannel :=
  (SecureChannel.new ("ch-c") ("l3") default_policy).close

/-- Counterexample to C8 as stated: a Closed channel is moved out of
Closed (to Attesting) by initiate_handshake, and an Established channel is
likewise moved to Attesting. -/
theorem handshake_state_transitions_cex :
    chanClosed.state = ChannelState.Closed
    ∧ (initiate_handshake toyHash chanClosed enclaveA 0 []).2.state =
        ChannelState.Attesting
    ∧ chanEst.state = ChannelState.Established
    ∧ (initiate_handshake toyHash chanEst enclaveA 0 [4]).2.state =
        ChannelState.Attesting := by
  refine ⟨rfl, rfl, ?_, rfl⟩
  decide

/-
Quote tampering (claim C9).
-/

/-- A quote with the report's enclave id replaced. -/
def tamper_enclave_id (q : AttestationQuote) (i : String) : AttestationQuote :=
  { q with enclave_data := { q.enclave_data with enclave_id := i } }

/-- A quote with the report's sealed-adapter count replaced. -/
def tamper_sealed_adapters (q : AttestationQuote) (n : Nat) : AttestationQuote :=
  { q with enclave_data := { q.enclave_data with sealed_adapters := n } }

/-- A quote with the report's uptime replaced. -/
def tamper_uptime (q : AttestationQuote) (u : Int) : AttestationQuote :=
  { q with enclave_data := { q.enclave_data with uptime_secs := u } }

/-- Claim C9 (amended): the signature of a generated quote binds the
measurement fields, the nonce, the report's enclave id and its
sealed-adapter count — but not the report's uptime.  Within the freshness
window, modifying the enclave id or the sealed-adapter count yields a
quote that verify_quote rejects as Invalid with a signature mismatch
(provided the hash does not collide on the two signature inputs), while a
quote with modified uptime still carries a correct signature for its
signed fields, so the tampering is not detected by the signature check. -/
theorem quote_signature_binding (H : Bytes → Bytes) (e : TeeEnclave) (nonce : String)
    (now vnow : Int) (p : AttestationPolicy) (id2 : String) (n2 : Nat) (up2 : Int)
    (hfresh : vnow - now ≤ p.max_quote_age_secs)
    (hcol1 : quote_signature H e.measurement nonce id2
        (generate_quote H e nonce now).enclave_data.sealed_adapters
      ≠ (generate_quote H e nonce now).signature)
    (hcol2 : quote_signature H e.measurement nonce e.id n2
      ≠ (generate_quote H e nonce now).signature) :
    verify_quote H vnow (tamper_enclave_id (generate_quote H e nonce now) id2) p
        = .Invalid ("Quote signature mismatch")
    ∧ verify_quote H vnow (tamper_sealed_adapters (generate_quote H e nonce now) n2) p
        = .Invalid ("Quote signature mismatch")
    ∧ (tamper_uptime (generate_quote H e nonce now) up2).signature
        = quote_signature H
            (tamper_uptime (generate_quote H e nonce now) up2).measurement
            (tamper_uptime (generate_quote H e nonce now) up2).nonce
            (tamper_uptime (generate_quote H e nonce now) up2).enclave_data.enclave_id
            (tamper_uptime (generate_quote H e nonce now) up2).enclave_data.sealed_adapters := by
  refine ⟨?_, ?_, rfl⟩
  · exact verify_quote_invalid_of H vnow _ p hfresh (Ne.symm hcol1)
  · exact verify_quote_invalid_of H vnow _ p hfresh (Ne.symm hcol2)

/-- Witness for (amended) C9 at a concrete enclave and tampered values. -/
theorem quote_signature_binding_witness :
    verify_quote toyHash 0 (tamper_enclave_id (generate_quote toyHash enclaveA ("n") 0)
        ("other")) default_policy = .Invalid ("Quote signature mismatch")
    ∧ verify_quote toyHash 0 (tamper_sealed_adapters
        (generate_quote toyHash enclaveA ("n") 0) 7) default_policy =
        .Invalid ("Quote signature mismatch")
    ∧ (tamper_uptime (generate_quote toyHash enclaveA ("n") 0) 999).signature
        = quote_signature toyHash
            (tamper_uptime (generate_quote toyHash enclaveA ("n") 0) 999).measurement
            (tamper_uptime (generate_quote toyHash enclaveA ("n") 0) 999).nonce
            (tamper_uptime (generate_quote toyHash enclaveA ("n") 0) 999).enclave_data.enclave_id
            (tamper_uptime (generate_quote toyHash enclaveA ("n") 0)
              999).enclave_data.sealed_adapters :=
  quote_signature_binding toyHash enclaveA ("n") 0 0 default_policy ("other") 7 999
    (by decide) (by decide) (by decide)

/-- Tampered quote changing only the report's uptime. -/
def quoteUp : AttestationQuote := tamper_uptime (generate_quote toyHash enclaveA ("n") 0) 999

/-- Counterexample to C9 as stated: the uptime-modified quote is a
fresh quote whose uptime differs from the generated one, yet
verify_quote accepts it as Trusted instead of rejecting it as Invalid —
uptime_secs is not bound by the signature. -/
theorem quote_signature_binding_cex :
    quoteUp.enclave_data.uptime_secs ≠
      (generate_quote toyHash enclaveA ("n") 0).enclave_data.uptime_secs
    ∧ verify_quote toyHash 0 quoteUp default_policy =
        .Trusted ("enclave-a") SecurityLevel.Software := by
  refine ⟨by decide, by decide⟩

/-
Message round-trip across two channels holding the same session key
(claim C5).
-/

theorem decrypt_encrypt_message (H : Bytes → Bytes) (hH : HashLike H)
    (c1 c2 : SecureChannel) (k plaintext : Bytes) (now : Int)
    (hk1 : c1.session_key = some k) (hk2 : c2.session_key = some k)
    (hseq : c2.recv_counter ≤ c1.send_counter)
    (hpt : ∀ x ∈ plaintext, x < 256)
    (msg : SecureMessage) (c1x : SecureChannel)
    (henc : encrypt_message H c1 plaintext now = (.ok msg, c1x)) :
    (decrypt_message H c2 msg).1 = .ok plaintext := by
  have hkslen : (message_keystream H k c1.send_counter plaintext.length).length
      = plaintext.length := message_keystream_length H hH k _ _
  have hctlen : (List.zipWith (fun b x => b ^^^ x) plaintext
      (message_keystream H k c1.send_counter plaintext.length)).length
      = plaintext.length := by
    rw [List.length_zipWith, hkslen, Nat.min_self]
  have hctmem : ∀ x ∈ List.zipWith (fun b x => b ^^^ x) plaintext
      (message_keystream H k c1.send_counter plaintext.length), x < 256 :=
    zipWith_xor_mem plaintext _ hpt (message_keystream_mem H hH k _ _)
  rw [encrypt_message_some_key H c1 plaintext now k hk1] at henc
  have hmsg : msg = { channel_id := c1.channel_id
                      sequence := c1.send_counter
                      ciphertext := hexEncode (List.zipWith (fun b x => b ^^^ x) plaintext
                        (message_keystream H k c1.send_counter plaintext.length))
                      mac := message_mac H k c1.send_counter plaintext
                      timestamp := now } :=
    (Except.ok.inj (congrArg Prod.fst henc)).symm
  subst hmsg
  rw [decrypt_message_some_key H c2 _ k hk2]
  dsimp only
  rw [if_neg (not_lt.mpr hseq)]
  simp only [hexDecode_hexEncode _ hctmem]
  rw [hctlen, zipWith_xor_cancel plaintext _ (le_of_eq hkslen.symm)]
  rw [if_neg (fun h => h rfl)]

theorem new_channel_id (cid lid : String) (p : AttestationPolicy) :
    (SecureChannel.new cid lid p).channel_id = cid := rfl

theorem new_local_enclave_id (cid lid : String) (p : AttestationPolicy) :
    (SecureChannel.new cid lid p).local_enclave_id = lid := rfl

theorem new_remote_enclave_id (cid lid : String) (p : AttestationPolicy) :
    (SecureChannel.new cid lid p).remote_enclave_id = none := rfl

theorem new_state (cid lid : String) (p : AttestationPolicy) :
    (SecureChannel.new cid lid p).state = ChannelState.Pending := rfl

theorem new_session_key (cid lid : String) (p : AttestationPolicy) :
    (SecureChannel.new cid lid p).session_key = none := rfl

theorem new_send_counter (cid lid : String) (p : AttestationPolicy) :
    (SecureChannel.new cid lid p).send_counter = 0 := rfl

theorem new_recv_counter (cid lid : String) (p : AttestationPolicy) :
    (SecureChannel.new cid lid p).recv_counter = 0 := rfl

theorem new_remote_security_level (cid lid : String) (p : AttestationPolicy) :
    (SecureChannel.new cid lid p).remote_security_level = none := rfl

theorem new_established_at (cid lid : String) (p : AttestationPolicy) :
    (SecureChannel.new cid lid p).established_at = none := rfl

theorem new_policy (cid lid : String) (p : AttestationPolicy) :
    (SecureChannel.new cid lid p).policy = p := rfl

theorem derive_session_key_symm (H : Bytes → Bytes) (a b cid : String) :
    derive_session_key H a b cid = derive_session_key H b a cid := by
  unfold derive_session_key
  rcases lt_trichotomy a b with h | h | h
  · rw [if_pos h, if_neg (not_lt.mpr (le_of_lt h))]
  · subst h; rfl
  · rw [if_neg (not_lt.mpr (le_of_lt h)), if_pos h]

/-- Claim C5: session-key derivation is symmetric in the two ephemeral
values; after a full handshake between two fresh channels in which both
quotes verify as Trusted, the initiator (complete_handshake with its own
dh_public and the responder's) and the responder hold identical session
keys, and a message encrypted on either side is decrypted exactly by the
other, in both directions. -/
theorem session_symmetry_roundtrip (H : Bytes → Bytes) (hH : HashLike H)
    (a b cid : String) (cidA lidA cidB lidB : String)
    (pA pB : AttestationPolicy) (eA eB : TeeEnclave)
    (nowI nowR nowC tE tE2 : Int) (randA randB : Bytes)
    (ptAB ptBA : Bytes) (hptAB : ∀ x ∈ ptAB, x < 256) (hptBA : ∀ x ∈ ptBA, x < 256)
    (init : HandshakeInit) (ca1 : SecureChannel)
    (hinit : initiate_handshake H (SecureChannel.new cidA lidA pA) eA nowI randA
      = (init, ca1))
    (resp : HandshakeResponse) (cb1 : SecureChannel)
    (hresp : respond_to_handshake H (SecureChannel.new cidB lidB pB) eB init nowR randB
      = (resp, cb1))
    (rid : String) (rlvl : SecurityLevel)
    (hv1 : verify_quote H nowR init.quote pB = .Trusted rid rlvl)
    (rid2 : String) (rlvl2 : SecurityLevel)
    (hv2 : verify_quote H nowC resp.quote pA = .Trusted rid2 rlvl2) :
    derive_session_key H a b cid = derive_session_key H b a cid
    ∧ (complete_handshake H ca1 resp init.dh_public nowC).1 = .ok ()
    ∧ (complete_handshake H ca1 resp init.dh_public nowC).2.session_key
        = cb1.session_key
    ∧ cb1.session_key.isSome = true
    ∧ (∀ msg cax, encrypt_message H
          (complete_handshake H ca1 resp init.dh_public nowC).2 ptAB tE
          = (.ok msg, cax) → (decrypt_message H cb1 msg).1 = .ok ptAB)
    ∧ (∀ msg cbx, encrypt_message H cb1 ptBA tE2 = (.ok msg, cbx) →
        (decrypt_message H (complete_handshake H ca1 resp init.dh_public nowC).2
          msg).1 = .ok ptBA) := by
  unfold initiate_handshake at hinit
  simp only [new_channel_id] at hinit
  injection hinit with hi1 hi2
  subst hi1
  subst hi2
  unfold respond_to_handshake at hresp
  simp only [new_channel_id, new_policy, new_local_enclave_id, new_remote_enclave_id,
    new_state, new_session_key, new_send_counter, new_recv_counter,
    new_remote_security_level, new_established_at] at hresp
  try dsimp only at hresp
  try dsimp only at hv1
  simp only [hv1] at hresp
  injection hresp with hr1 hr2
  subst hr1
  subst hr2
  simp only [new_channel_id, new_policy, new_local_enclave_id, new_remote_enclave_id,
    new_state, new_session_key, new_send_counter, new_recv_counter,
    new_remote_security_level, new_established_at] at hv2 ⊢
  try dsimp only at hv2
  refine ⟨derive_session_key_symm H a b cid, ?_, ?_, rfl, ?_, ?_⟩
  · unfold complete_handshake
    dsimp only
    rw [if_neg (fun hfalse => Bool.noConfusion hfalse)]
    simp only [hv2]
  · unfold complete_handshake
    dsimp only
    rw [if_neg (fun hfalse => Bool.noConfusion hfalse)]
    simp only [hv2]
  · intro msg cax henc
    unfold complete_handshake at henc
    dsimp only at henc
    rw [if_neg (fun hfalse => Bool.noConfusion hfalse)] at henc
    simp only [hv2] at henc
    exact decrypt_encrypt_message H hH _ _ _ ptAB tE rfl rfl Nat.le.refl hptAB
      msg cax henc
  · intro msg cbx henc
    unfold complete_handshake
    dsimp only
    rw [if_neg (fun hfalse => Bool.noConfusion hfalse)]
    simp only [hv2]
    exact decrypt_encrypt_message H hH _ _ _ ptBA tE2 rfl rfl Nat.le.refl hptBA
      msg cbx henc

def chanA5 : SecureChannel := SecureChannel.new ("ch-s") ("la") default_policy

def chanB5 : SecureChannel := SecureChannel.new ("ch-t") ("lb") default_policy

def init5 : HandshakeInit := (initiate_handshake toyHash chanA5 enclaveA 0 [9]).1

def ca5 : SecureChannel := (initiate_handshake toyHash chanA5 enclaveA 0 [9]).2

def resp5 : HandshakeResponse :=
  (respond_to_handshake toyHash chanB5 enclaveB init5 0 [8]).1

def cb5 : SecureChannel :=
  (respond_to_handshake toyHash chanB5 enclaveB init5 0 [8]).2

/-- Witness for C5: a concrete full handshake between two fresh channels
backed by two concrete software enclaves. -/
theorem session_symmetry_roundtrip_witness :
    derive_session_key toyHash ("x") ("y") ("c")
        = derive_session_key toyHash ("y") ("x") ("c")
    ∧ (complete_handshake toyHash ca5 resp5 init5.dh_public 0).1 = .ok ()
    ∧ (complete_handshake toyHash ca5 resp5 init5.dh_public 0).2.session_key
        = cb5.session_key
    ∧ cb5.session_key.isSome = true
    ∧ (∀ msg cax, encrypt_message toyHash
          (complete_handshake toyHash ca5 resp5 init5.dh_public 0).2 [1, 2] 0
          = (.ok msg, cax) → (decrypt_message toyHash cb5 msg).1 = .ok [1, 2])
    ∧ (∀ msg cbx, encrypt_message toyHash cb5 [3] 0 = (.ok msg, cbx) →
        (decrypt_message toyHash
          (complete_handshake toyHash ca5 resp5 init5.dh_public 0).2 msg).1
          = .ok [3]) :=
  session_symmetry_roundtrip toyHash toyHash_hashLike ("x") ("y") ("c")
    ("ch-s") ("la") ("ch-t") ("lb") default_policy default_policy
    enclaveA enclaveB 0 0 0 0 0 [9] [8] [1, 2] [3] (by decide) (by decide)
    init5 ca5 rfl resp5 cb5 rfl ("enclave-a") SecurityLevel.Software (by decide)
    ("enclave-b") SecurityLevel.Software (by decide)

/-
Sealed-storage round trip (claim C4).
-/

theorem string_append_ne (s x y : String) (hxy : x ≠ y) : s ++ x ≠ s ++ y := by
  intro h
  apply hxy
  have hd : (s ++ x).data = (s ++ y).data := congrArg String.data h
  rw [String.data_append, String.data_append] at hd
  exact String.ext (List.append_cancel_left hd)

theorem file_keystream_mem (H : Bytes → Bytes) (hH : HashLike H)
    (key : Bytes) (len : Nat) : ∀ b ∈ file_keystream H key len, b < 256 := by
  intro b hmem
  exact streamBlocks_mem _ (fun ctr => (hH _).2) len 0 b (List.mem_of_mem_take hmem)

theorem flatMap_leBytes_mem (l : List Nat) : ∀ x ∈ l.flatMap (leBytes 8), x < 256 := by
  intro x hx
  rw [List.mem_flatMap] at hx
  obtain ⟨a, _, hxa⟩ := hx
  exact leBytes_mem_lt 8 a x hxa

theorem seal_for_file_mem (H : Bytes → Bytes) (hH : HashLike H) (pt : Bytes)
    (adapter_id label : String) (hpt : ∀ x ∈ pt, x < 256) :
    ∀ x ∈ seal_for_file H pt adapter_id label, x < 256 := by
  intro x hx
  unfold seal_for_file at hx
  rw [List.mem_append] at hx
  rcases hx with hx | hx
  · exact zipWith_xor_mem pt _ hpt
      (file_keystream_mem H hH _ pt.length) x hx
  · exact (hH _).2 x hx

theorem unseal_seal_for_file (H : Bytes → Bytes) (hH : HashLike H) (pt : Bytes)
    (adapter_id label : String) :
    unseal_from_file H (seal_for_file H pt adapter_id label) adapter_id label
      = .ok pt := by
  have hkslen : (file_keystream H (derive_file_key H adapter_id label) pt.length).length
      = pt.length := file_keystream_length H hH _ _
  set key := derive_file_key H adapter_id label with hkey
  set ks := file_keystream H key pt.length with hksdef
  set ct := List.zipWith (fun b k => b ^^^ k) pt ks with hctdef
  have hctlen : ct.length = pt.length := by
    rw [hctdef, List.length_zipWith, hkslen, Nat.min_self]
  set mac := file_mac H key pt with hmacdef
  have hmaclen : mac.length = 32 := (hH _).1
  have hsf : seal_for_file H pt adapter_id label = ct ++ mac := by
    rw [seal_for_file]
  have hlen : (ct ++ mac).length = pt.length + 32 := by
    simp only [List.length_append, hctlen, hmaclen]
  have hnot : ¬ (ct ++ mac).length < 32 := by rw [hlen]; omega
  rw [hsf]
  simp only [unseal_from_file]
  rw [if_neg hnot, split2_take ct mac hmaclen, split2_drop ct mac hmaclen,
    hctlen, ← hkey, ← hksdef, hctdef,
    zipWith_xor_cancel pt ks (le_of_eq hkslen.symm), ← hmacdef]
  rw [if_neg (fun h => h rfl)]

theorem except_bind_ok {ε α β : Type} (a : α) (f : α → Except ε β) :
    (Except.ok a : Except ε α) >>= f = f a := rfl

theorem unseal_matrix_factors_of_seal (H : Bytes → Bytes) (hH : HashLike H)
    (e : TeeEnclave) (m1 m2 m3 : Bytes) (adapter_id : String)
    (u s v : List Nat)
    (hm1 : m1.length = 16) (hm2 : m2.length = 16) (hm3 : m3.length = 16)
    (hu : ∀ x ∈ u, x < 2 ^ 64) (hs : ∀ x ∈ s, x < 2 ^ 64)
    (hv : ∀ x ∈ v, x < 2 ^ 64) :
    unseal_matrix_factors H (seal_matrix_factors H e m1 m2 m3 adapter_id u s v)
      adapter_id = .ok (u, s, v) := by
  have hUV : adapter_id ++ "/U" ≠ adapter_id ++ "/V" :=
    string_append_ne adapter_id _ _ (by decide)
  have hUS : adapter_id ++ "/U" ≠ adapter_id ++ "/S" :=
    string_append_ne adapter_id _ _ (by decide)
  have hSV : adapter_id ++ "/S" ≠ adapter_id ++ "/V" :=
    string_append_ne adapter_id _ _ (by decide)
  have hU : (seal_matrix_factors H e m1 m2 m3 adapter_id u s v).unseal H
      (adapter_id ++ "/U") = .ok (u.flatMap (leBytes 8)) := by
    unfold seal_matrix_factors TeeEnclave.seal TeeEnclave.unseal
    rw [mapGet_insert_ne _ _ _ _ hUV, mapGet_insert_ne _ _ _ _ hUS,
      mapGet_insert_self]
    exact decrypt_encrypt H hH _ m1 _ hm1
  have hS : (seal_matrix_factors H e m1 m2 m3 adapter_id u s v).unseal H
      (adapter_id ++ "/S") = .ok (s.flatMap (leBytes 8)) := by
    unfold seal_matrix_factors TeeEnclave.seal TeeEnclave.unseal
    rw [mapGet_insert_ne _ _ _ _ hSV, mapGet_insert_self]
    exact decrypt_encrypt H hH _ m2 _ hm2
  have hV : (seal_matrix_factors H e m1 m2 m3 adapter_id u s v).unseal H
      (adapter_id ++ "/V") = .ok (v.flatMap (leBytes 8)) := by
    unfold seal_matrix_factors TeeEnclave.seal TeeEnclave.unseal
    rw [mapGet_insert_self]
    exact decrypt_encrypt H hH _ m3 _ hm3
  unfold unseal_matrix_factors
  rw [hU, except_bind_ok, hS, except_bind_ok, hV, except_bind_ok]
  rw [bytes_to_f64_flatMap u hu, bytes_to_f64_flatMap s hs, bytes_to_f64_flatMap v hv]
  rfl

/-- Claim C4: after seal_adapter on one enclave, unseal_adapter on any
storage holding the persisted index (a reload of the same directory) and
any supplied enclave — a freshly constructed one included — returns
exactly the three factor arrays, because each blob's storage key is
derived from the adapter id, the array label and a fixed domain tag only;
the recovered arrays are also re-sealed into the supplied enclave's
volatile store (second conjunct). -/
theorem seal_adapter_unseal_roundtrip (H : Bytes → Bytes) (hH : HashLike H)
    (s1 s2 : SealedStorage) (e1 e2 : TeeEnclave)
    (n1 n2 n3 m1 m2 m3 : Bytes) (adapter_id name : String)
    (domains : List String) (rank : Nat) (dims : Nat × Nat)
    (u_data sigma_data v_data : List Nat) (now : Int)
    (hm1 : m1.length = 16) (hm2 : m2.length = 16) (hm3 : m3.length = 16)
    (hu : ∀ x ∈ u_data, x < 2 ^ 64) (hsg : ∀ x ∈ sigma_data, x < 2 ^ 64)
    (hvd : ∀ x ∈ v_data, x < 2 ^ 64)
    (hload : s2.index.records = ((seal_adapter H s1 e1 n1 n2 n3 adapter_id name
      domains rank dims u_data sigma_data v_data now).1).index.records) :
    (unseal_adapter H s2 e2 m1 m2 m3 adapter_id).1
        = .ok (u_data, sigma_data, v_data)
    ∧ unseal_matrix_factors H (unseal_adapter H s2 e2 m1 m2 m3 adapter_id).2
        adapter_id = .ok (u_data, sigma_data, v_data) := by
  have hrec : mapGet s2.index.records adapter_id = some
      { adapter_id := adapter_id
        name := name
        domains := domains
        rank := rank
        original_dims := dims
        sealed_u := hexEncode (seal_for_file H (u_data.flatMap (leBytes 8))
          adapter_id ("U"))
        sealed_sigma := hexEncode (seal_for_file H (sigma_data.flatMap (leBytes 8))
          adapter_id ("S"))
        sealed_v := hexEncode (seal_for_file H (v_data.flatMap (leBytes 8))
          adapter_id ("V"))
        integrity_hash := record_integrity_hash H
          (hexEncode (seal_for_file H (u_data.flatMap (leBytes 8)) adapter_id ("U")))
          (hexEncode (seal_for_file H (sigma_data.flatMap (leBytes 8)) adapter_id ("S")))
          (hexEncode (seal_for_file H (v_data.flatMap (leBytes 8)) adapter_id ("V")))
          adapter_id
        sealed_at := now
        enclave_id := e1.id } := by
    rw [hload]
    exact mapGet_insert_self s1.index.records adapter_id _
  have hmemU := seal_for_file_mem H hH (u_data.flatMap (leBytes 8)) adapter_id ("U")
    (flatMap_leBytes_mem u_data)
  have hmemS := seal_for_file_mem H hH (sigma_data.flatMap (leBytes 8)) adapter_id ("S")
    (flatMap_leBytes_mem sigma_data)
  have hmemV := seal_for_file_mem H hH (v_data.flatMap (leBytes 8)) adapter_id ("V")
    (flatMap_leBytes_mem v_data)
  unfold unseal_adapter
  simp only [hrec]
  rw [if_neg (fun h => h rfl)]
  simp only [hexDecode_hexEncode _ hmemU, hexDecode_hexEncode _ hmemS,
    hexDecode_hexEncode _ hmemV]
  simp only [unseal_seal_for_file H hH (u_data.flatMap (leBytes 8)) adapter_id ("U"),
    unseal_seal_for_file H hH (sigma_data.flatMap (leBytes 8)) adapter_id ("S"),
    unseal_seal_for_file H hH (v_data.flatMap (leBytes 8)) adapter_id ("V")]
  rw [bytes_to_f64_flatMap u_data hu, bytes_to_f64_flatMap sigma_data hsg,
    bytes_to_f64_flatMap v_data hvd]
  constructor
  · rfl
  · exact unseal_matrix_factors_of_seal H hH e2 m1 m2 m3 adapter_id
      u_data sigma_data v_data hm1 hm2 hm3 hu hsg hvd

def storageW : SealedStorage :=
  { storage_dir := "dir", index := { records := [], total_sealed := 0, last_updated := 0 } }

def sealedW : SealedStorage :=
  (seal_adapter toyHash storageW enclaveA (List.range 16) (List.range 16)
    (List.range 16) ("a1") ("x") [] 1 (2, 1) [1, 2] [3] [4, 5] 0).1

/-- Witness for C4 at the spec's end-to-end scenario: seal under one
enclave, unseal through a second, distinct enclave. -/
theorem seal_adapter_unseal_roundtrip_witness :
    (unseal_adapter toyHash sealedW enclaveB (List.range 16) (List.range 16)
        (List.range 16) ("a1")).1 = .ok ([1, 2], [3], [4, 5])
    ∧ unseal_matrix_factors toyHash (unseal_adapter toyHash sealedW enclaveB
        (List.range 16) (List.range 16) (List.range 16) ("a1")).2 ("a1")
        = .ok ([1, 2], [3], [4, 5]) :=
  seal_adapter_unseal_roundtrip toyHash toyHash_hashLike storageW sealedW
    enclaveA enclaveB (List.range 16) (List.range 16) (List.range 16)
    (List.range 16) (List.range 16) (List.range 16) ("a1") ("x") [] 1 (2, 1)
    [1, 2] [3] [4, 5] 0 (by decide) (by decide) (by decide) (by decide)
    (by decide) (by decide) rfl
